import Mathlib

set_option maxHeartbeats 1000000

/-!
Verification development for the nuwa x402 payment-gating engine
(packages/x402/src/llm/index.ts and packages/x402/src/mcp/x402-mcp-server.ts,
plus the OpenRouter proxy example's debt ledger).

Strings are modelled as lists of characters (`Str`), JavaScript exceptions as
`Thrown` values carrying an `instanceof Error` flag and a message, and the
external collaborators (facilitator verify/settle, payment-header codec,
price conversion) as oracle fields of an environment record, so that every
control-flow decision of the source is reproduced executably.
-/

/-- Strings as lists of characters, so that splitting, trimming and scanning
can be reasoned about by list induction. -/
abbrev Str := List Char

/-- Conversion from a Lean string literal to the `Str` model. -/
def str (s : String) : Str := s.data

/-- Character-wise ASCII lowercasing, the model of JavaScript
`String.prototype.toLowerCase` on the ASCII header tokens this code handles. -/
def lowerStr (s : Str) : Str := s.map Char.toLower

/-- Whitespace test used by `trim` and by the `\s` character class of the
facilitator-status regular expression. -/
def isWsChar (c : Char) : Bool :=
  c = ' ' || c = '\t' || c = '\n' || c = '\x0d' || c = '\x0c' || c = '\x0b'

/-- Model of JavaScript `String.prototype.trim`: drop whitespace from both ends. -/
def trimStr (s : Str) : Str :=
  ((s.dropWhile isWsChar).reverse.dropWhile isWsChar).reverse

/-- Decimal digit test, the `\d` class of the status-extraction regex. -/
def isDigitChar (c : Char) : Bool := '0' ≤ c && c ≤ '9'

/-- Numeric value of a decimal digit character. -/
def digitVal (c : Char) : Nat := c.toNat - '0'.toNat

/-- A JavaScript thrown value: whether it is an `instanceof Error`, and its
message (meaningful only when it is an Error). -/
structure Thrown where
  isErrorInstance : Bool
  message : Str
deriving Repr, DecidableEq

/-- Retry options of `retryWithBackoff` with the source's defaults
(`DEFAULT_SETTLEMENT_ATTEMPTS = 3`, `DEFAULT_BACKOFF_START_MS = 150`,
`maxDelayMs = 1000`). -/
structure RetryOptions where
  maxAttempts : Nat := 3
  initialDelayMs : Nat := 150
  maxDelayMs : Nat := 1000
deriving Repr, DecidableEq

/-- The delay computed inside the retry loop after `attempt` failures:
`min(initialDelayMs * 2 ** (attempt - 1), maxDelayMs)`. -/
def backoffDelay (initialDelayMs maxDelayMs attempt : Nat) : Nat :=
  min (initialDelayMs * 2 ^ (attempt - 1)) maxDelayMs

/-- Message of the generic error thrown when retries are exhausted and the
last caught value was not an `Error` instance. -/
def genericRetryMessage : Str := str "Operation failed after retries"

/-- The value re-thrown after the retry loop exhausts: the last caught error
when it is an `Error` instance, otherwise a fresh generic `Error`. -/
def rethrownError : Option Thrown → Thrown
  | some e => if e.isErrorInstance then e else ⟨true, genericRetryMessage⟩
  | none => ⟨true, genericRetryMessage⟩

instance {ε α : Type} [DecidableEq ε] [DecidableEq α] : DecidableEq (Except ε α) := fun a b =>
  match a, b with
  | .ok x, .ok y => if h : x = y then .isTrue (by rw [h]) else .isFalse (by intro hc; cases hc; exact h rfl)
  | .error x, .error y => if h : x = y then .isTrue (by rw [h]) else .isFalse (by intro hc; cases hc; exact h rfl)
  | .ok _, .error _ => .isFalse (by intro hc; cases hc)
  | .error _, .ok _ => .isFalse (by intro hc; cases hc)

/-- Observable trace of one `retryWithBackoff` run: how many times the
operation was invoked, the sleeps performed between attempts (in order), and
the final outcome (`ok` result or the re-thrown error). -/
structure RetryTrace (α : Type) where
  callCount : Nat
  delays : List Nat
  outcome : Except Thrown α
deriving Repr, DecidableEq

/-- The retry loop of `retryWithBackoff`, with the mutable `attempt`,
accumulated (reversed) delay list and `lastError` made explicit. The
operation is modelled as a function from the zero-based invocation index to
the attempt's outcome. The extra `fuel` argument only drives structural
recursion; the loop's own exit conditions are exactly those of the source,
and the fuel-exhaustion branch is unreachable whenever
`maxAttempts ≤ attempt + fuel + 1` (see `retryGo_fuel_irrelevant` style
invariants in the lemmas below), in particular at the sole call site, which
passes `fuel = maxAttempts`. -/
def retryGo (op : Nat → Except Thrown α) (maxAttempts initialDelayMs maxDelayMs : Nat) :
    Nat → Nat → List Nat → Option Thrown → RetryTrace α
  | fuel, attempt, delays, lastError =>
    if attempt < maxAttempts then
      match op attempt with
      | .ok value => ⟨attempt + 1, delays.reverse, .ok value⟩
      | .error e =>
        if maxAttempts ≤ attempt + 1 then
          ⟨attempt + 1, delays.reverse, .error (rethrownError (some e))⟩
        else
          match fuel with
          | 0 => ⟨attempt + 1, delays.reverse, .error (rethrownError (some e))⟩
          | fuel + 1 =>
            retryGo op maxAttempts initialDelayMs maxDelayMs fuel (attempt + 1)
              (backoffDelay initialDelayMs maxDelayMs (attempt + 1) :: delays) (some e)
    else
      ⟨attempt, delays.reverse, .error (rethrownError lastError)⟩

/-- Model of `retryWithBackoff` from packages/x402/src/llm/index.ts. -/
def retryWithBackoff (op : Nat → Except Thrown α) (options : RetryOptions) : RetryTrace α :=
  retryGo op options.maxAttempts options.initialDelayMs options.maxDelayMs
    options.maxAttempts 0 [] none

/-- Attempt to match the regex `Failed to settle payment:\s+(\d{3})` at the
start of the character list: the literal, then at least one whitespace, then
three digits (greedy whitespace backtracking is vacuous because digits are
not whitespace). -/
def matchSettleStatusHere (s : Str) : Option Nat :=
  let lit := str "Failed to settle payment:"
  if lit.isPrefixOf s then
    let rest := s.drop lit.length
    let ws := rest.takeWhile isWsChar
    let tail := rest.dropWhile isWsChar
    if ws.length = 0 then none
    else
      match tail with
      | d1 :: d2 :: d3 :: _ =>
        if isDigitChar d1 && isDigitChar d2 && isDigitChar d3 then
          some (digitVal d1 * 100 + digitVal d2 * 10 + digitVal d3)
        else none
      | _ => none
  else none

/-- Scan of the whole message for the first position where the settle-status
pattern matches, as an unanchored JavaScript regex search does. -/
def findSettleStatus : Str → Option Nat
  | [] => none
  | c :: cs =>
    match matchSettleStatusHere (c :: cs) with
    | some n => some n
    | none => findSettleStatus cs

/-- Model of `extractFacilitatorStatus`: only `Error` instances are
inspected; the first match of `Failed to settle payment:\s+(\d{3})` in the
message yields the three-digit number (which can never be NaN, so the NaN
guard of the source is vacuous). -/
def extractFacilitatorStatus (error : Thrown) : Option Nat :=
  if !error.isErrorInstance then none
  else findSettleStatus error.message

theorem extractFacilitatorStatus_match :
    extractFacilitatorStatus ⟨true, str "Failed to settle payment: 503"⟩ = some 503 := by
  decide

theorem extractFacilitatorStatus_match_embedded :
    extractFacilitatorStatus ⟨true, str "x Failed to settle payment:  451z"⟩ = some 451 := by
  decide

theorem extractFacilitatorStatus_requires_space :
    extractFacilitatorStatus ⟨true, str "Failed to settle payment:503"⟩ = none := by
  decide

theorem extractFacilitatorStatus_requires_error_instance :
    extractFacilitatorStatus ⟨false, str "Failed to settle payment: 503"⟩ = none := by
  decide

theorem retryWithBackoff_sample :
    retryWithBackoff (fun n => if n < 2 then .error ⟨true, str "e"⟩ else .ok 7) {} =
      ⟨3, [150, 300], .ok 7⟩ := by
  decide

/-- Characterization of the retry loop when the operation first succeeds at
zero-based index `j`: every earlier attempt was entered, failed, and was
followed by the computed backoff delay; the loop stops right at `j`. -/
theorem retryGo_first_success (op : Nat → Except Thrown α)
    (maxAttempts initialDelayMs maxDelayMs : Nat) (j : Nat) (v : α) :
    ∀ fuel attempt delays lastError,
      attempt ≤ j → j < maxAttempts → maxAttempts ≤ attempt + fuel + 1 →
      (∀ i, attempt ≤ i → i < j → ∃ e, op i = Except.error e) →
      op j = Except.ok v →
      retryGo op maxAttempts initialDelayMs maxDelayMs fuel attempt delays lastError =
        ⟨j + 1,
         delays.reverse ++
           (List.range' (attempt + 1) (j - attempt)).map
             (backoffDelay initialDelayMs maxDelayMs),
         Except.ok v⟩ := by
  intro fuel
  induction fuel with
  | zero =>
    intro attempt delays lastError hle hlt hfuel herr hok
    have hja : j = attempt := by omega
    subst hja
    rw [retryGo]
    simp only [hok, if_pos hlt]
    simp
  | succ fuel ih =>
    intro attempt delays lastError hle hlt hfuel herr hok
    rcases Nat.eq_or_lt_of_le hle with hja | hja
    · subst hja
      rw [retryGo]
      simp only [hok, if_pos hlt]
      simp
    · obtain ⟨e, he⟩ := herr attempt (le_refl _) hja
      have hma : attempt < maxAttempts := by omega
      have hma2 : ¬ maxAttempts ≤ attempt + 1 := by omega
      rw [retryGo]
      simp only [he, if_pos hma, if_neg hma2]
      rw [ih (attempt + 1) _ (some e) (by omega) hlt (by omega)
        (fun i hi1 hi2 => herr i (by omega) hi2) hok]
      have hrange : List.range' (attempt + 1) (j - attempt) =
          (attempt + 1) :: List.range' (attempt + 2) (j - attempt - 1) := by
        have h3 : j - attempt = (j - attempt - 1) + 1 := by omega
        rw [h3, List.range'_succ]
        simp
      rw [hrange]
      have h4 : j - (attempt + 1) = j - attempt - 1 := by omega
      simp [h4]

/-- Characterization of the retry loop when every attempt up to the bound
fails: all `maxAttempts` invocations happen, each but the last followed by
the computed backoff delay, and the loop ends by re-throwing. -/
theorem retryGo_exhausted (op : Nat → Except Thrown α)
    (maxAttempts initialDelayMs maxDelayMs : Nat) (e : Nat → Thrown) :
    ∀ fuel attempt delays lastError,
      attempt < maxAttempts → maxAttempts ≤ attempt + fuel + 1 →
      (∀ i, attempt ≤ i → i < maxAttempts → op i = Except.error (e i)) →
      retryGo op maxAttempts initialDelayMs maxDelayMs fuel attempt delays lastError =
        ⟨maxAttempts,
         delays.reverse ++
           (List.range' (attempt + 1) (maxAttempts - attempt - 1)).map
             (backoffDelay initialDelayMs maxDelayMs),
         Except.error (rethrownError (some (e (maxAttempts - 1))))⟩ := by
  intro fuel
  induction fuel with
  | zero =>
    intro attempt delays lastError hlt hfuel herr
    have hma : maxAttempts = attempt + 1 := by omega
    have he := herr attempt (le_refl _) hlt
    rw [retryGo]
    simp only [he, if_pos hlt, if_pos (le_of_eq hma.symm)]
    subst hma
    simp
  | succ fuel ih =>
    intro attempt delays lastError hlt hfuel herr
    have he := herr attempt (le_refl _) hlt
    rw [retryGo]
    simp only [he, if_pos hlt]
    by_cases hma : maxAttempts ≤ attempt + 1
    · have hma2 : maxAttempts = attempt + 1 := by omega
      simp only [if_pos hma]
      subst hma2
      simp
    · simp only [if_neg hma]
      rw [ih (attempt + 1) _ (some (e attempt)) (by omega) (by omega)
        (fun i hi1 hi2 => herr i (by omega) hi2)]
      have hrange : List.range' (attempt + 1) (maxAttempts - attempt - 1) =
          (attempt + 1) :: List.range' (attempt + 2) (maxAttempts - attempt - 2) := by
        have h3 : maxAttempts - attempt - 1 = (maxAttempts - attempt - 2) + 1 := by omega
        rw [h3, List.range'_succ]
      rw [hrange]
      have h4 : maxAttempts - (attempt + 1) - 1 = maxAttempts - attempt - 2 := by omega
      simp [h4]

/-- Top-level form of `retryGo_first_success` for `retryWithBackoff`. -/
theorem retryWithBackoff_first_success (op : Nat → Except Thrown α) (opts : RetryOptions)
    (j : Nat) (v : α) (hlt : j < opts.maxAttempts)
    (herr : ∀ i, i < j → ∃ e, op i = Except.error e) (hok : op j = Except.ok v) :
    retryWithBackoff op opts =
      ⟨j + 1,
       (List.range j).map (fun i => min (opts.initialDelayMs * 2 ^ i) opts.maxDelayMs),
       Except.ok v⟩ := by
  rw [retryWithBackoff,
    retryGo_first_success op opts.maxAttempts opts.initialDelayMs opts.maxDelayMs j v
      opts.maxAttempts 0 [] none (Nat.zero_le _) hlt (by omega)
      (fun i _ hi => herr i hi) hok]
  have : List.range' 1 j = (List.range j).map (· + 1) := by
    rw [List.range'_eq_map_range]
    simp [Nat.add_comm]
  simp [this, List.map_map, backoffDelay, Function.comp]

/-- Top-level form of `retryGo_exhausted` for `retryWithBackoff`. -/
theorem retryWithBackoff_exhausted (op : Nat → Except Thrown α) (opts : RetryOptions)
    (e : Nat → Thrown) (hpos : 0 < opts.maxAttempts)
    (herr : ∀ i, i < opts.maxAttempts → op i = Except.error (e i)) :
    retryWithBackoff op opts =
      ⟨opts.maxAttempts,
       (List.range (opts.maxAttempts - 1)).map
         (fun i => min (opts.initialDelayMs * 2 ^ i) opts.maxDelayMs),
       Except.error (rethrownError (some (e (opts.maxAttempts - 1))))⟩ := by
  rw [retryWithBackoff,
    retryGo_exhausted op opts.maxAttempts opts.initialDelayMs opts.maxDelayMs e
      opts.maxAttempts 0 [] none hpos (by omega) (fun i _ hi => herr i hi)]
  have : List.range' 1 (opts.maxAttempts - 1) =
      (List.range (opts.maxAttempts - 1)).map (· + 1) := by
    rw [List.range'_eq_map_range]
    simp [Nat.add_comm]
  simp [this, List.map_map, backoffDelay, Function.comp]

/-- C10: `retryWithBackoff` invokes its operation exactly `j + 1` times when
the operation first succeeds at zero-based index `j` (attempt `j + 1`),
returning that attempt's result with exactly the `j` inter-attempt delays
already performed and no further invocations; and when all `maxAttempts`
invocations throw, it re-throws the final attempt's error when that value is
an `Error` instance and otherwise throws a generic
"Operation failed after retries" error. -/
theorem retryWithBackoff_invocations_and_rethrow (op : Nat → Except Thrown α)
    (opts : RetryOptions) :
    (∀ j v, j < opts.maxAttempts →
       (∀ i, i < j → ∃ e, op i = Except.error e) → op j = Except.ok v →
       (retryWithBackoff op opts).callCount = j + 1 ∧
       (retryWithBackoff op opts).outcome = Except.ok v ∧
       (retryWithBackoff op opts).delays.length = j) ∧
    (∀ e : Nat → Thrown, 0 < opts.maxAttempts →
       (∀ i, i < opts.maxAttempts → op i = Except.error (e i)) →
       (retryWithBackoff op opts).callCount = opts.maxAttempts ∧
       (retryWithBackoff op opts).outcome =
         Except.error
           (if (e (opts.maxAttempts - 1)).isErrorInstance then e (opts.maxAttempts - 1)
            else ⟨true, genericRetryMessage⟩)) := by
  constructor
  · intro j v hlt herr hok
    rw [retryWithBackoff_first_success op opts j v hlt herr hok]
    simp
  · intro e hpos herr
    rw [retryWithBackoff_exhausted op opts e hpos herr]
    simp [rethrownError]

/-- Concrete operation failing exactly once before succeeding, used to
exercise the retry theorems. -/
def retryOpFailOnce : Nat → Except Thrown Nat :=
  fun n => if n = 0 then Except.error ⟨false, str "raw"⟩ else Except.ok 5

/-- Witness for C10 at a concrete operation: fails once (with a non-Error
throw), then succeeds at the second invocation. -/
theorem retryWithBackoff_invocations_and_rethrow_witness :
    (retryWithBackoff retryOpFailOnce {}).callCount = 2 ∧
    (retryWithBackoff retryOpFailOnce {}).outcome = Except.ok 5 ∧
    (retryWithBackoff retryOpFailOnce {}).delays.length = 1 :=
  (retryWithBackoff_invocations_and_rethrow retryOpFailOnce {}).1 1 5 (by decide)
    (fun i hi => by
      interval_cases i
      exact ⟨⟨false, str "raw"⟩, rfl⟩)
    rfl

/-- Header map of the Fetch `Headers` class: names are case-insensitive, so
they are stored lowercased; `set` replaces an existing entry in place or
appends a new one. -/
abbrev HeaderMap := List (Str × Str)

/-- Model of `Headers.prototype.get` (no `append` is used by this code, so a
single value per name suffices). -/
def hget (h : HeaderMap) (name : Str) : Option Str :=
  (h.find? (fun p => p.1 == lowerStr name)).map (fun p => p.2)

/-- Model of `Headers.prototype.has`. -/
def hhas (h : HeaderMap) (name : Str) : Bool :=
  (hget h name).isSome

/-- Model of `Headers.prototype.set`. -/
def hset (h : HeaderMap) (name value : Str) : HeaderMap :=
  if h.any (fun p => p.1 == lowerStr name) then
    h.map (fun p => if p.1 == lowerStr name then (p.1, value) else p)
  else h ++ [(lowerStr name, value)]

theorem hget_hset_self (h : HeaderMap) (name value : Str) :
    hget (hset h name value) name = some value := by
  unfold hget hset
  by_cases hc : h.any (fun p => p.1 == lowerStr name)
  · rw [if_pos hc]
    induction h with
    | nil => simp at hc
    | cons p t ih =>
      by_cases hp : p.1 == lowerStr name
      · simp [List.find?, hp]
      · simp only [List.any_cons, hp, Bool.false_or] at hc
        simpa [List.find?, hp] using ih hc
  · rw [if_neg hc]
    induction h with
    | nil => simp [List.find?]
    | cons p t ih =>
      simp only [List.any_cons, Bool.or_eq_true, not_or] at hc
      have hp : (p.1 == lowerStr name) = false := by
        simpa using hc.1
      simp only [List.cons_append, List.find?, hp]
      exact ih (by simpa using hc.2)

theorem hget_hset_other (h : HeaderMap) (name value other : Str)
    (hne : lowerStr other ≠ lowerStr name) :
    hget (hset h name value) other = hget h other := by
  have hno : ∀ s : Str, s = lowerStr name → (s == lowerStr other) = false := by
    intro s hs
    subst hs
    simp only [beq_eq_false_iff_ne, ne_eq]
    exact fun hc2 => hne hc2.symm
  unfold hget hset
  by_cases hc : h.any (fun p => p.1 == lowerStr name)
  · rw [if_pos hc]
    clear hc
    induction h with
    | nil => simp
    | cons p t ih =>
      by_cases hp : (p.1 == lowerStr name) = true
      · have hpeq : p.1 = lowerStr name := by simpa using hp
        have hp2 := hno p.1 hpeq
        rw [List.map_cons, List.find?_cons_of_neg _ (by simp [hp, hp2]),
          List.find?_cons_of_neg _ (by simp [hp2])]
        exact ih
      · by_cases hq : (p.1 == lowerStr other) = true
        · rw [List.map_cons, List.find?_cons_of_pos _ (by simp [hp, hq]),
            List.find?_cons_of_pos _ (by simp [hq])]
          simp [hp]
        · rw [List.map_cons, List.find?_cons_of_neg _ (by simp [hp, hq]),
            List.find?_cons_of_neg _ (by simp [hq])]
          exact ih
  · rw [if_neg hc]
    clear hc
    induction h with
    | nil =>
      simp [List.find?, hno (lowerStr name) rfl]
    | cons p t ih =>
      by_cases hq : (p.1 == lowerStr other) = true
      · rw [List.cons_append, List.find?_cons_of_pos _ (by simp [hq]),
          List.find?_cons_of_pos _ (by simp [hq])]
      · rw [List.cons_append, List.find?_cons_of_neg _ (by simp [hq]),
          List.find?_cons_of_neg _ (by simp [hq])]
        exact ih

/-- Model of JavaScript `String.prototype.split(",")`. -/
def splitComma : Str → List Str
  | [] => [[]]
  | c :: cs =>
    if c = ',' then [] :: splitComma cs
    else
      match splitComma cs with
      | t :: ts => (c :: t) :: ts
      | [] => [[c]]

theorem splitComma_ne_nil (s : Str) : splitComma s ≠ [] := by
  induction s with
  | nil => simp [splitComma]
  | cons c cs ih =>
    unfold splitComma
    by_cases hc : c = ','
    · simp [hc]
    · simp only [hc, if_false]
      match hsp : splitComma cs with
      | t :: ts => simp
      | [] => simp

/-- Splitting at an explicitly inserted comma yields the split of the suffix
as a suffix of the overall split. -/
theorem splitComma_append_comma (a b : Str) :
    ∃ init, splitComma (a ++ ',' :: b) = init ++ splitComma b ∧ init ≠ [] := by
  induction a with
  | nil => exact ⟨[[]], by simp [splitComma], by simp⟩
  | cons c cs ih =>
    obtain ⟨init, hinit, hne⟩ := ih
    by_cases hc : c = ','
    · exact ⟨[] :: init, by simp [splitComma, hc, hinit], by simp⟩
    · match init, hinit, hne with
      | t :: ts, hinit, _ =>
        refine ⟨(c :: t) :: ts, ?_, by simp⟩
        rw [List.cons_append]
        simp only [splitComma, hc, if_false]
        rw [hinit]
        rfl
      | [], hinit, hne => exact absurd rfl hne

/-- Name of the request payment header. -/
def X_PAYMENT_HEADER : Str := str "X-PAYMENT"

/-- Name of the response settlement-evidence header. -/
def X_PAYMENT_RESPONSE_HEADER : Str := str "X-PAYMENT-RESPONSE"

/-- Name of the CORS expose-headers response header. -/
def ACCESS_CONTROL_EXPOSE_HEADERS : Str := str "Access-Control-Expose-Headers"

/-- The constant headers attached to every gate-built JSON response
(`JSON_RESPONSE_HEADERS` in the source). -/
def JSON_RESPONSE_HEADERS : HeaderMap :=
  [(lowerStr (str "Content-Type"), str "application/json"),
   (lowerStr ACCESS_CONTROL_EXPOSE_HEADERS, X_PAYMENT_RESPONSE_HEADER)]

/-- The token list the source computes from an expose-headers value:
split on commas, trim, lowercase, drop empty entries (`filter(Boolean)`). -/
def exposeTokens (value : Str) : List Str :=
  ((splitComma value).map (fun v => lowerStr (trimStr v))).filter (fun v => !v.isEmpty)

/-- Model of `ensurePaymentResponseIsExposed`: when the settlement-evidence
header is present, make sure the expose-headers list names it (the
`!existing` test of the source is also true for an empty string value). -/
def ensurePaymentResponseIsExposed (headers : HeaderMap) : HeaderMap :=
  if !(hhas headers X_PAYMENT_RESPONSE_HEADER) then headers
  else
    match hget headers ACCESS_CONTROL_EXPOSE_HEADERS with
    | none => hset headers ACCESS_CONTROL_EXPOSE_HEADERS X_PAYMENT_RESPONSE_HEADER
    | some existing =>
      if existing.isEmpty then
        hset headers ACCESS_CONTROL_EXPOSE_HEADERS X_PAYMENT_RESPONSE_HEADER
      else if !((exposeTokens existing).contains (lowerStr X_PAYMENT_RESPONSE_HEADER)) then
        hset headers ACCESS_CONTROL_EXPOSE_HEADERS
          (existing ++ str ", " ++ X_PAYMENT_RESPONSE_HEADER)
      else headers

/-- Whether the expose-headers value of a header map names the
settlement-evidence header, read with the source's own token parsing. -/
def exposesPaymentResponse (headers : HeaderMap) : Bool :=
  match hget headers ACCESS_CONTROL_EXPOSE_HEADERS with
  | some v => (exposeTokens v).contains (lowerStr X_PAYMENT_RESPONSE_HEADER)
  | none => false

theorem exposeTokens_append_contains (existing : Str) :
    (exposeTokens (existing ++ str ", " ++ X_PAYMENT_RESPONSE_HEADER)).contains
      (lowerStr X_PAYMENT_RESPONSE_HEADER) = true := by
  have hsplit : existing ++ str ", " ++ X_PAYMENT_RESPONSE_HEADER =
      existing ++ ',' :: (' ' :: X_PAYMENT_RESPONSE_HEADER) := by
    simp [str, X_PAYMENT_RESPONSE_HEADER]
  rw [hsplit]
  obtain ⟨init, hinit, -⟩ := splitComma_append_comma existing (' ' :: X_PAYMENT_RESPONSE_HEADER)
  have htail : splitComma (' ' :: X_PAYMENT_RESPONSE_HEADER) =
      [' ' :: X_PAYMENT_RESPONSE_HEADER] := by decide
  have htok : lowerStr (trimStr (' ' :: X_PAYMENT_RESPONSE_HEADER)) =
      lowerStr X_PAYMENT_RESPONSE_HEADER := by decide
  have hne : (lowerStr X_PAYMENT_RESPONSE_HEADER).isEmpty = false := by decide
  unfold exposeTokens
  rw [hinit, htail]
  apply List.elem_eq_true_of_mem
  simp only [List.map_append, List.filter_append, List.mem_append]
  right
  simp [htok, hne]

/-- After `ensurePaymentResponseIsExposed`, a header map carrying the
settlement-evidence header always names it in its expose-headers list. -/
theorem ensureExposed_exposes (headers : HeaderMap)
    (hpresent : hhas headers X_PAYMENT_RESPONSE_HEADER = true) :
    exposesPaymentResponse (ensurePaymentResponseIsExposed headers) = true := by
  unfold ensurePaymentResponseIsExposed
  rw [hpresent]
  simp only [Bool.not_true, Bool.false_eq_true, if_false]
  split
  · unfold exposesPaymentResponse
    rw [hget_hset_self]
    decide
  · next existing hex =>
    split
    · unfold exposesPaymentResponse
      rw [hget_hset_self]
      decide
    · split
      · unfold exposesPaymentResponse
        rw [hget_hset_self]
        exact exposeTokens_append_contains existing
      · next hcont =>
        unfold exposesPaymentResponse
        rw [hex]
        simpa using hcont

/-- JSON values, used for response bodies and for the model of the
`JSON.stringify` / `JSON.parse` builtins (numbers restricted to integers,
which covers everything this code serializes). -/
inductive Json where
  | null
  | bool (b : Bool)
  | num (n : Int)
  | str (s : Str)
  | arr (elements : List Json)
  | obj (fields : List (Str × Json))
deriving Repr

/-- Decimal rendering of an integer. -/
def intToStr (n : Int) : Str :=
  if n < 0 then '-' :: Nat.toDigits 10 n.natAbs else Nat.toDigits 10 n.toNat

/-- Lower-case hexadecimal digit. -/
def hexDigitChar (n : Nat) : Char :=
  if n < 10 then Char.ofNat ('0'.toNat + n) else Char.ofNat ('a'.toNat + n - 10)

/-- Escaping of one character inside a JSON string literal, exactly as
`JSON.stringify` does: quote, backslash and the named control escapes, a
`\u00xx` escape for the remaining control characters, and every other
character verbatim. -/
def quoteChar (c : Char) : Str :=
  if c = '"' then ['\\', '"']
  else if c = '\\' then ['\\', '\\']
  else if c = '\x08' then ['\\', 'b']
  else if c = '\x09' then ['\\', 't']
  else if c = '\x0a' then ['\\', 'n']
  else if c = '\x0c' then ['\\', 'f']
  else if c = '\x0d' then ['\\', 'r']
  else if c.toNat < 32 then
    let lo := hexDigitChar (c.toNat % 16)
    '\\' :: 'u' :: '0' :: '0' :: hexDigitChar (c.toNat / 16) :: [lo]
  else [c]

/-- A JSON string literal: quote, escaped body, quote. -/
def quoteStr (s : Str) : Str :=
  '"' :: (s.map quoteChar).flatten ++ ['"']

mutual

/-- Model of `JSON.stringify` (no indentation, fields in insertion order). -/
def jsonStringify : Json → Str
  | .null => str "null"
  | .bool b => if b then str "true" else str "false"
  | .num n => intToStr n
  | .str s => quoteStr s
  | .arr xs => '[' :: jsonStringifyElems xs ++ [']']
  | .obj fs => '\x7b' :: jsonStringifyMembers fs ++ ['\x7d']

/-- Comma-separated stringification of array elements. -/
def jsonStringifyElems : List Json → Str
  | [] => []
  | [x] => jsonStringify x
  | x :: y :: rest => jsonStringify x ++ ',' :: jsonStringifyElems (y :: rest)

/-- Comma-separated stringification of object members. -/
def jsonStringifyMembers : List (Str × Json) → Str
  | [] => []
  | [(k, v)] => quoteStr k ++ ':' :: jsonStringify v
  | (k, v) :: m :: rest =>
    quoteStr k ++ ':' :: jsonStringify v ++ ',' :: jsonStringifyMembers (m :: rest)

end

/-- JavaScript truthiness of a JSON value. -/
def jsTruthyJson : Json → Bool
  | .null => false
  | .bool b => b
  | .num n => decide (n ≠ 0)
  | .str s => !s.isEmpty
  | .arr _ => true
  | .obj _ => true

/-- JavaScript truthiness of a possibly-undefined JSON value. -/
def jsTruthy : Option Json → Bool
  | none => false
  | some j => jsTruthyJson j

/-- Property read on a parsed JSON value: objects expose their last binding
for the key (as `JSON.parse` lets later duplicates win), anything else
yields `undefined`. -/
def jsonGetField (j : Json) (key : Str) : Option Json :=
  match j with
  | .obj fs => (fs.reverse.find? (fun p => p.1 == key)).map (fun p => p.2)
  | _ => none

/-- The `typeof json === "object"` test (arrays and `null` also pass it). -/
def jsonIsObjectType : Json → Bool
  | .obj _ => true
  | .arr _ => true
  | .null => true
  | _ => false

/-- UTF-8 encoding of one Unicode scalar value (as byte values). -/
def utf8EncodeNat (n : Nat) : List Nat :=
  if n < 0x80 then [n]
  else if n < 0x800 then [0xC0 + n / 64, 0x80 + n % 64]
  else if n < 0x10000 then [0xE0 + n / 4096, 0x80 + n / 64 % 64, 0x80 + n % 64]
  else [0xF0 + n / 262144, 0x80 + n / 4096 % 64, 0x80 + n / 64 % 64, 0x80 + n % 64]

/-- UTF-8 encoding of a string as a byte-value list. -/
def utf8Encode (s : Str) : List Nat :=
  (s.map (fun c => utf8EncodeNat c.toNat)).flatten

/-- Continuation-byte test. -/
def isContByte (b : Nat) : Bool := 0x80 ≤ b && b < 0xC0

/-- Reader of the continuation of a two-byte UTF-8 sequence; `k` decodes the
remaining input. -/
def utf8Two (k : List Nat → Option Str) (b1 : Nat) : List Nat → Option Str
  | b2 :: rest2 =>
    if isContByte b2 then
      let code := (b1 - 0xC0) * 64 + (b2 - 0x80)
      if 0x80 ≤ code then (k rest2).map (fun cs => Char.ofNat code :: cs)
      else none
    else none
  | [] => none

/-- Reader of the continuation of a three-byte UTF-8 sequence. -/
def utf8Three (k : List Nat → Option Str) (b1 : Nat) : List Nat → Option Str
  | b2 :: b3 :: rest2 =>
    if isContByte b2 && isContByte b3 then
      let code := (b1 - 0xE0) * 4096 + (b2 - 0x80) * 64 + (b3 - 0x80)
      if 0x800 ≤ code && !(0xD800 ≤ code && code < 0xE000) then
        (k rest2).map (fun cs => Char.ofNat code :: cs)
      else none
    else none
  | _ => none

/-- Reader of the continuation of a four-byte UTF-8 sequence. -/
def utf8Four (k : List Nat → Option Str) (b1 : Nat) : List Nat → Option Str
  | b2 :: b3 :: b4 :: rest2 =>
    if isContByte b2 && isContByte b3 && isContByte b4 then
      let code := (b1 - 0xF0) * 262144 + (b2 - 0x80) * 4096 + (b3 - 0x80) * 64 + (b4 - 0x80)
      if 0x10000 ≤ code && code < 0x110000 then
        (k rest2).map (fun cs => Char.ofNat code :: cs)
      else none
    else none
  | _ => none

/-- Strict UTF-8 decoding of a byte-value list (scalar-range checks rule out
overlong forms and surrogates, matching what a text decoder accepts). The
fuel argument only drives structural recursion; one unit is spent per
decoded character, so any fuel of at least the input length suffices. -/
def utf8DecodeGo : Nat → List Nat → Option Str
  | _, [] => some []
  | 0, _ :: _ => none
  | fuel + 1, b1 :: rest =>
    if b1 < 0x80 then (utf8DecodeGo fuel rest).map (fun cs => Char.ofNat b1 :: cs)
    else if b1 < 0xC0 then none
    else if b1 < 0xE0 then utf8Two (utf8DecodeGo fuel) b1 rest
    else if b1 < 0xF0 then utf8Three (utf8DecodeGo fuel) b1 rest
    else if b1 < 0xF8 then utf8Four (utf8DecodeGo fuel) b1 rest
    else none

/-- Strict UTF-8 decoding with enough fuel for the whole input. -/
def utf8Decode (bs : List Nat) : Option Str :=
  utf8DecodeGo (bs.length + 1) bs

theorem utf8EncodeNat_bytes_lt (n : Nat) (hn : n < 0x110000) :
    ∀ b ∈ utf8EncodeNat n, b < 256 := by
  intro b hb
  unfold utf8EncodeNat at hb
  by_cases h1 : n < 0x80
  · simp only [if_pos h1, List.mem_singleton] at hb
    omega
  · by_cases h2 : n < 0x800
    · simp only [if_neg h1, if_pos h2, List.mem_cons, List.mem_singleton] at hb
      rcases hb with hb | hb | hfalse
      · omega
      · omega
      · simp at hfalse
    · by_cases h3 : n < 0x10000
      · simp only [if_neg h1, if_neg h2, if_pos h3, List.mem_cons, List.mem_singleton] at hb
        rcases hb with hb | hb | hb | hfalse
        · omega
        · omega
        · omega
        · simp at hfalse
      · simp only [if_neg h1, if_neg h2, if_neg h3, List.mem_cons, List.mem_singleton] at hb
        rcases hb with hb | hb | hb | hb | hfalse
        · omega
        · omega
        · omega
        · omega
        · simp at hfalse

theorem utf8DecodeGo_encode_cons (c : Char) (bs : List Nat) (fuel : Nat) :
    utf8DecodeGo (fuel + 1) (utf8EncodeNat c.toNat ++ bs) =
      (utf8DecodeGo fuel bs).map (fun cs => c :: cs) := by
  have hvalid : c.toNat < 0xD800 ∨ (0xE000 ≤ c.toNat ∧ c.toNat < 0x110000) := c.valid
  have hofnat : Char.ofNat c.toNat = c := Char.ofNat_toNat c
  set n := c.toNat with hn
  by_cases h1 : n < 0x80
  · rw [utf8EncodeNat, if_pos h1, List.cons_append, List.nil_append]
    simp only [utf8DecodeGo]
    rw [if_pos h1, hofnat]
  · by_cases h2 : n < 0x800
    · rw [utf8EncodeNat, if_neg h1, if_pos h2, List.cons_append, List.cons_append,
        List.nil_append]
      simp only [utf8DecodeGo]
      have hb1a : ¬ (0xC0 + n / 64 < 0x80) := by omega
      have hb1b : ¬ (0xC0 + n / 64 < 0xC0) := by omega
      have hb1c : 0xC0 + n / 64 < 0xE0 := by omega
      rw [if_neg hb1a, if_neg hb1b, if_pos hb1c]
      simp only [utf8Two]
      have hcont : isContByte (0x80 + n % 64) = true := by
        unfold isContByte
        simp only [Bool.and_eq_true, decide_eq_true_eq]
        omega
      rw [if_pos hcont]
      have hcode : (0xC0 + n / 64 - 0xC0) * 64 + (0x80 + n % 64 - 0x80) = n := by omega
      rw [hcode]
      have hge : (0x80 : Nat) ≤ n := by omega
      rw [if_pos hge, hofnat]
    · by_cases h3 : n < 0x10000
      · rw [utf8EncodeNat, if_neg h1, if_neg h2, if_pos h3, List.cons_append,
          List.cons_append, List.cons_append, List.nil_append]
        simp only [utf8DecodeGo]
        have hb1a : ¬ (0xE0 + n / 4096 < 0x80) := by omega
        have hb1b : ¬ (0xE0 + n / 4096 < 0xC0) := by omega
        have hb1c : ¬ (0xE0 + n / 4096 < 0xE0) := by omega
        have hb1d : 0xE0 + n / 4096 < 0xF0 := by omega
        rw [if_neg hb1a, if_neg hb1b, if_neg hb1c, if_pos hb1d]
        simp only [utf8Three]
        have hcont : (isContByte (0x80 + n / 64 % 64) && isContByte (0x80 + n % 64)) = true := by
          unfold isContByte
          simp only [Bool.and_eq_true, decide_eq_true_eq]
          omega
        rw [if_pos hcont]
        have hcode : (0xE0 + n / 4096 - 0xE0) * 4096 + (0x80 + n / 64 % 64 - 0x80) * 64 +
            (0x80 + n % 64 - 0x80) = n := by omega
        rw [hcode]
        have hrange : (decide ((0x800 : Nat) ≤ n) &&
            !(decide ((0xD800 : Nat) ≤ n) && decide (n < 0xE000))) = true := by
          simp only [Bool.and_eq_true, decide_eq_true_eq, Bool.not_eq_true',
            Bool.and_eq_false_iff, decide_eq_false_iff_not]
          refine ⟨by omega, ?_⟩
          rcases hvalid with hv | hv
          · left
            omega
          · right
            omega
        rw [if_pos hrange, hofnat]
      · have h4 : n < 0x110000 := by
          rcases hvalid with hv | hv
          · omega
          · omega
        rw [utf8EncodeNat, if_neg h1, if_neg h2, if_neg h3, List.cons_append,
          List.cons_append, List.cons_append, List.cons_append, List.nil_append]
        simp only [utf8DecodeGo]
        have hb1a : ¬ (0xF0 + n / 262144 < 0x80) := by omega
        have hb1b : ¬ (0xF0 + n / 262144 < 0xC0) := by omega
        have hb1c : ¬ (0xF0 + n / 262144 < 0xE0) := by omega
        have hb1d : ¬ (0xF0 + n / 262144 < 0xF0) := by omega
        have hb1e : 0xF0 + n / 262144 < 0xF8 := by omega
        rw [if_neg hb1a, if_neg hb1b, if_neg hb1c, if_neg hb1d, if_pos hb1e]
        simp only [utf8Four]
        have hcont : (isContByte (0x80 + n / 4096 % 64) && isContByte (0x80 + n / 64 % 64) &&
            isContByte (0x80 + n % 64)) = true := by
          unfold isContByte
          simp only [Bool.and_eq_true, decide_eq_true_eq]
          omega
        rw [if_pos hcont]
        have hcode : (0xF0 + n / 262144 - 0xF0) * 262144 + (0x80 + n / 4096 % 64 - 0x80) * 4096 +
            (0x80 + n / 64 % 64 - 0x80) * 64 + (0x80 + n % 64 - 0x80) = n := by omega
        rw [hcode]
        have hrange : (decide ((0x10000 : Nat) ≤ n) && decide (n < 0x110000)) = true := by
          simp only [Bool.and_eq_true, decide_eq_true_eq]
          omega
        rw [if_pos hrange, hofnat]

theorem utf8EncodeNat_ne_nil (n : Nat) : utf8EncodeNat n ≠ [] := by
  unfold utf8EncodeNat
  by_cases h1 : n < 0x80
  · simp [h1]
  · by_cases h2 : n < 0x800
    · simp [h1, h2]
    · by_cases h3 : n < 0x10000
      · simp [h1, h2, h3]
      · simp [h1, h2, h3]

theorem utf8Encode_length_ge (s : Str) : s.length ≤ (utf8Encode s).length := by
  induction s with
  | nil => simp [utf8Encode]
  | cons c cs ih =>
    unfold utf8Encode
    rw [List.map_cons, List.flatten_cons, List.length_append]
    have h1 : 1 ≤ (utf8EncodeNat c.toNat).length := by
      rcases hn : utf8EncodeNat c.toNat with _ | _
      · exact absurd hn (utf8EncodeNat_ne_nil _)
      · simp
    have h2 : (cs.map (fun c => utf8EncodeNat c.toNat)).flatten = utf8Encode cs := rfl
    rw [h2]
    simp only [List.length_cons]
    omega

theorem utf8DecodeGo_encode (s : Str) :
    ∀ fuel, s.length ≤ fuel → utf8DecodeGo fuel (utf8Encode s) = some s := by
  induction s with
  | nil =>
    intro fuel hfuel
    show utf8DecodeGo fuel [] = some []
    cases fuel with
    | zero => rfl
    | succ f => rfl
  | cons c cs ih =>
    intro fuel hfuel
    cases fuel with
    | zero => simp at hfuel
    | succ f =>
      unfold utf8Encode
      rw [List.map_cons, List.flatten_cons]
      have h2 : (cs.map (fun c => utf8EncodeNat c.toNat)).flatten = utf8Encode cs := rfl
      rw [h2, utf8DecodeGo_encode_cons, ih f (by simpa using hfuel)]
      rfl

theorem utf8_roundtrip (s : Str) : utf8Decode (utf8Encode s) = some s := by
  unfold utf8Decode
  apply utf8DecodeGo_encode
  have := utf8Encode_length_ge s
  omega

/-- The standard base64 alphabet. -/
def base64StdAlphabet : Str :=
  str "ABCDEFGHIJKLMNOPQRSTUVWXYZabcdefghijklmnopqrstuvwxyz0123456789+/"

/-- The URL-safe base64 alphabet. -/
def base64UrlAlphabet : Str :=
  str "ABCDEFGHIJKLMNOPQRSTUVWXYZabcdefghijklmnopqrstuvwxyz0123456789-_"

/-- Character for a six-bit group in the URL-safe alphabet. -/
def base64UrlChar (n : Nat) : Char := base64UrlAlphabet.getD n '?'

/-- Character for a six-bit group in the standard alphabet. -/
def base64StdChar (n : Nat) : Char := base64StdAlphabet.getD n '?'

/-- Six-bit value of a standard-alphabet character. -/
def sextetOfStdChar (c : Char) : Option Nat := base64StdAlphabet.indexOf? c

/-- The per-character translation performed by the two global replaces of
`base64UrlToBase64` (they act on disjoint characters, so one pass suffices). -/
def base64UrlToStdChar (c : Char) : Char :=
  if c = '-' then '+' else if c = '_' then '/' else c

/-- Model of `base64UrlToBase64` from packages/x402/src/llm/index.ts: replace
URL-safe characters and pad to a length that is a multiple of four. -/
def base64UrlToBase64 (input : Str) : Str :=
  let s := input.map base64UrlToStdChar
  let pad := if s.length % 4 = 0 then 0 else 4 - s.length % 4
  s ++ List.replicate pad '='

/-- Unpadded URL-safe base64 encoding of a byte-value list. -/
def base64UrlEncode : List Nat → Str
  | [] => []
  | [b1] => [base64UrlChar (b1 / 4), base64UrlChar (b1 % 4 * 16)]
  | [b1, b2] => [base64UrlChar (b1 / 4), base64UrlChar (b1 % 4 * 16 + b2 / 16),
      base64UrlChar (b2 % 16 * 4)]
  | b1 :: b2 :: b3 :: rest =>
    base64UrlChar (b1 / 4) :: base64UrlChar (b1 % 4 * 16 + b2 / 16) ::
      base64UrlChar (b2 % 16 * 4 + b3 / 64) :: base64UrlChar (b3 % 64) :: base64UrlEncode rest

/-- Decoding of one four-character base64 group; `k` is the decoding of the
remaining input and `restEmpty` tells whether padding is allowed here. -/
def base64Chunk (k : Option (List Nat)) (c1 c2 c3 c4 : Char) (restEmpty : Bool) :
    Option (List Nat) :=
  (sextetOfStdChar c1).bind fun s1 =>
  (sextetOfStdChar c2).bind fun s2 =>
  if c3 = '=' then
    if c4 = '=' && restEmpty then some [s1 * 4 + s2 / 16] else none
  else
    (sextetOfStdChar c3).bind fun s3 =>
    if c4 = '=' then
      if restEmpty then some [s1 * 4 + s2 / 16, s2 % 16 * 16 + s3 / 4] else none
    else
      (sextetOfStdChar c4).bind fun s4 =>
      (k.map fun bs => (s1 * 4 + s2 / 16) :: (s2 % 16 * 16 + s3 / 4) :: (s3 % 4 * 64 + s4) :: bs)

/-- Strict decoding of standard padded base64 into byte values. -/
def base64DecodeStd : Str → Option (List Nat)
  | [] => some []
  | c1 :: c2 :: c3 :: c4 :: rest =>
    base64Chunk (base64DecodeStd rest) c1 c2 c3 c4 rest.isEmpty
  | _ => none

theorem base64UrlToStdChar_urlChar (s : Nat) (hs : s < 64) :
    base64UrlToStdChar (base64UrlChar s) = base64StdChar s := by
  revert s
  decide

theorem sextetOfStdChar_stdChar (s : Nat) (hs : s < 64) :
    sextetOfStdChar (base64StdChar s) = some s := by
  revert s
  decide

theorem base64StdChar_ne_pad (s : Nat) (hs : s < 64) : ¬ base64StdChar s = '=' := by
  revert s
  decide

theorem base64UrlToBase64_cons4 (a b c d : Char) (e : Str) :
    base64UrlToBase64 (a :: b :: c :: d :: e) =
      base64UrlToStdChar a :: base64UrlToStdChar b :: base64UrlToStdChar c ::
        base64UrlToStdChar d :: base64UrlToBase64 e := by
  unfold base64UrlToBase64
  simp only [List.map_cons, List.length_cons, List.length_map]
  have hmod : (e.length + 1 + 1 + 1 + 1) % 4 = e.length % 4 := by omega
  rw [hmod]
  simp [List.cons_append]

theorem base64_roundtrip (bytes : List Nat) :
    (∀ b ∈ bytes, b < 256) →
    base64DecodeStd (base64UrlToBase64 (base64UrlEncode bytes)) = some bytes := by
  induction bytes using base64UrlEncode.induct with
  | case1 =>
    intro _
    rfl
  | case2 b1 =>
    intro hb
    have h1 : b1 < 256 := hb b1 (by simp)
    have hs1 : b1 / 4 < 64 := by omega
    have hs2 : b1 % 4 * 16 < 64 := by omega
    show base64DecodeStd
        (base64UrlToBase64 [base64UrlChar (b1 / 4), base64UrlChar (b1 % 4 * 16)]) = some [b1]
    have htb : base64UrlToBase64 [base64UrlChar (b1 / 4), base64UrlChar (b1 % 4 * 16)] =
        [base64StdChar (b1 / 4), base64StdChar (b1 % 4 * 16), '=', '='] := by
      unfold base64UrlToBase64
      simp [base64UrlToStdChar_urlChar _ hs1, base64UrlToStdChar_urlChar _ hs2, List.replicate]
    rw [htb]
    have harith : b1 / 4 * 4 + b1 % 4 * 16 / 16 = b1 := by omega
    simp [base64DecodeStd, base64Chunk, sextetOfStdChar_stdChar _ hs1,
      sextetOfStdChar_stdChar _ hs2, harith]
    omega
  | case3 b1 b2 =>
    intro hb
    have h1 : b1 < 256 := hb b1 (by simp)
    have h2 : b2 < 256 := hb b2 (by simp)
    have hs1 : b1 / 4 < 64 := by omega
    have hs2 : b1 % 4 * 16 + b2 / 16 < 64 := by omega
    have hs3 : b2 % 16 * 4 < 64 := by omega
    show base64DecodeStd (base64UrlToBase64 [base64UrlChar (b1 / 4),
        base64UrlChar (b1 % 4 * 16 + b2 / 16), base64UrlChar (b2 % 16 * 4)]) = some [b1, b2]
    have htb : base64UrlToBase64 [base64UrlChar (b1 / 4),
        base64UrlChar (b1 % 4 * 16 + b2 / 16), base64UrlChar (b2 % 16 * 4)] =
        [base64StdChar (b1 / 4), base64StdChar (b1 % 4 * 16 + b2 / 16),
          base64StdChar (b2 % 16 * 4), '='] := by
      unfold base64UrlToBase64
      simp [base64UrlToStdChar_urlChar _ hs1, base64UrlToStdChar_urlChar _ hs2,
        base64UrlToStdChar_urlChar _ hs3, List.replicate]
    rw [htb]
    have he1 : b1 / 4 * 4 + (b1 % 4 * 16 + b2 / 16) / 16 = b1 := by omega
    have he2 : (b1 % 4 * 16 + b2 / 16) % 16 * 16 + b2 % 16 * 4 / 4 = b2 := by omega
    simp [base64DecodeStd, base64Chunk, sextetOfStdChar_stdChar _ hs1,
      sextetOfStdChar_stdChar _ hs2, sextetOfStdChar_stdChar _ hs3,
      base64StdChar_ne_pad _ hs3, he1, he2]
    omega
  | case4 b1 b2 b3 rest ih =>
    intro hb
    have h1 : b1 < 256 := hb b1 (by simp)
    have h2 : b2 < 256 := hb b2 (by simp)
    have h3 : b3 < 256 := hb b3 (by simp)
    have ihh := ih (fun b hbm => hb b (by simp [hbm]))
    have hs1 : b1 / 4 < 64 := by omega
    have hs2 : b1 % 4 * 16 + b2 / 16 < 64 := by omega
    have hs3 : b2 % 16 * 4 + b3 / 64 < 64 := by omega
    have hs4 : b3 % 64 < 64 := by omega
    show base64DecodeStd (base64UrlToBase64 (base64UrlChar (b1 / 4) ::
        base64UrlChar (b1 % 4 * 16 + b2 / 16) :: base64UrlChar (b2 % 16 * 4 + b3 / 64) ::
        base64UrlChar (b3 % 64) :: base64UrlEncode rest)) = some (b1 :: b2 :: b3 :: rest)
    rw [base64UrlToBase64_cons4, base64UrlToStdChar_urlChar _ hs1,
      base64UrlToStdChar_urlChar _ hs2, base64UrlToStdChar_urlChar _ hs3,
      base64UrlToStdChar_urlChar _ hs4]
    have he1 : b1 / 4 * 4 + (b1 % 4 * 16 + b2 / 16) / 16 = b1 := by omega
    have he2 : (b1 % 4 * 16 + b2 / 16) % 16 * 16 + (b2 % 16 * 4 + b3 / 64) / 4 = b2 := by omega
    have he3 : (b2 % 16 * 4 + b3 / 64) % 4 * 64 + b3 % 64 = b3 := by omega
    simp [base64DecodeStd, base64Chunk, sextetOfStdChar_stdChar _ hs1,
      sextetOfStdChar_stdChar _ hs2, sextetOfStdChar_stdChar _ hs3,
      sextetOfStdChar_stdChar _ hs4, base64StdChar_ne_pad _ hs3,
      base64StdChar_ne_pad _ hs4, ihh, he1, he2, he3]

/-- Modelled from the spec: `safeBase64Encode` from the external `x402/shared`
package is not in this repository; §6 states the settlement-evidence header
value is "a base64(-url-safe) encoding" of the JSON text, so it is modelled
as unpadded URL-safe base64 of the UTF-8 bytes (which is exactly the input
shape the repository's own `base64UrlToBase64` converts back to standard
padded base64). -/
def safeBase64Encode (s : Str) : Str := base64UrlEncode (utf8Encode s)

/-- Model of the external `Buffer.from(b64, "base64").toString("utf-8")`
pipeline used by `decodePaymentResponseHeader`: strict base64 and UTF-8
decoding, with any failure collapsing to `none` (the source wraps the
subsequent `JSON.parse` in a catch-all, so failures are observationally
`undefined`). -/
def bufferUtf8Decode (b64 : Str) : Option Str :=
  (base64DecodeStd b64).bind utf8Decode

theorem utf8Encode_bytes_lt (s : Str) : ∀ b ∈ utf8Encode s, b < 256 := by
  intro b hb
  unfold utf8Encode at hb
  simp only [List.mem_flatten, List.mem_map] at hb
  obtain ⟨l, ⟨c, hc, hl⟩, hbl⟩ := hb
  have hvc : c.toNat < 0xD800 ∨ (0xE000 ≤ c.toNat ∧ c.toNat < 0x110000) := c.valid
  have hvalid : c.toNat < 0x110000 := by
    rcases hvc with hv | hv
    · omega
    · omega
  subst hl
  exact utf8EncodeNat_bytes_lt c.toNat hvalid b hbl

/-- Round trip of the full header-value pipeline: URL-safe encoding by the
gate, then padding normalization and strict decoding by the reader. -/
theorem safeBase64_roundtrip (s : Str) :
    bufferUtf8Decode (base64UrlToBase64 (safeBase64Encode s)) = some s := by
  unfold bufferUtf8Decode safeBase64Encode
  rw [base64_roundtrip (utf8Encode s) (utf8Encode_bytes_lt s)]
  simp [utf8_roundtrip s]

/-- A Fetch `Response` as the gate observes it: status, headers, and the
JSON value of the body (bodies are only ever built or passed through, never
re-parsed, so carrying the structured value is faithful). -/
structure Response where
  status : Nat
  headers : HeaderMap
  body : Json
deriving Repr

/-- The facilitator's verification result. -/
structure VerificationResult where
  isValid : Bool
  invalidReason : Option Str
  payer : Option Str
deriving Repr

/-- The facilitator's settlement result (`SettleResponse`). -/
structure SettleResponse where
  success : Bool
  transaction : Str
  network : Str
  payer : Option Str
deriving Repr, DecidableEq

/-- A decoded payment credential: the protocol version stamped by the gate
and the opaque remainder of the payload. -/
structure PaymentPayload where
  x402Version : Nat
  payload : Str
deriving Repr, DecidableEq

/-- A built payment requirement, opaque to the claims except for its
serialization into `accepts` arrays. -/
structure PaymentRequirements where
  asJson : Json
deriving Repr

/-- The `errorMessages` overrides of `PaymentMiddlewareConfig`. -/
structure ErrorMessages where
  paymentRequired : Option Str := none
  invalidPayment : Option Str := none
  noMatchingRequirements : Option Str := none
  verificationFailed : Option Str := none
  settlementFailed : Option Str := none
deriving Repr

/-- JavaScript `a || b` on an optional string: an absent or empty string is
falsy and falls through to the default. -/
def orElseStr (a : Option Str) (b : Str) : Str :=
  match a with
  | some s => if s.isEmpty then b else s
  | none => b

/-- The parts of `EnsurePaymentConfig` the gating logic itself reads; the
price/network/payTo data only flows into the requirement-building
collaborator, which the environment models as an oracle over the whole
config. -/
structure EnsurePaymentConfig where
  price : Int
  network : Str
  payTo : Str
  errorMessages : ErrorMessages
deriving Repr

/-- Protocol version stamped on decoded payloads (`X402_VERSION`). -/
def X402_VERSION : Nat := 1

/-- Model of `buildPaymentRequiredResponse`: the 402 payment-challenge
response, with optional additional fields spread into the body. -/
def buildPaymentRequiredResponse (error : Str) (accepts : Json)
    (additional : List (Str × Json)) : Response :=
  { status := 402
    headers := JSON_RESPONSE_HEADERS
    body := Json.obj ([(str "x402Version", Json.num 1), (str "error", Json.str error),
      (str "accepts", accepts)] ++ additional) }

/-- The environment of one gated call: the request data plus all external
collaborators (requirement building, payment-header codec, facilitator
verify and settle, `toJsonSafe`, and the protected operation), each as an
oracle describing what that collaborator would do on this call. Settle is
indexed by attempt number since the retry loop calls it repeatedly. -/
structure GateEnv where
  buildReq : EnsurePaymentConfig → Except Response PaymentRequirements
  header : Option Str
  decodePayment : Str → Except Thrown PaymentPayload
  findMatching : List PaymentRequirements → PaymentPayload → Option PaymentRequirements
  verify : Except Thrown VerificationResult
  settle : Nat → Except Thrown SettleResponse
  toJsonSafe : Json → Json
  handler : Except Thrown Response

/-- Outcome of `ensurePayment`: either a failure response, or the decoded
payment, the selected requirement and the full requirements array captured
by the settle closure. -/
inductive EnsureOutcome where
  | failure (response : Response)
  | success (payment : PaymentPayload) (selected : PaymentRequirements)
      (accepts : List PaymentRequirements)

/-- Result of `ensurePayment` together with how often the facilitator's
verify operation was invoked. -/
structure EnsureRun where
  outcome : EnsureOutcome
  verifyCalls : Nat

/-- Serialization of a requirements array into an `accepts` JSON value. -/
def acceptsJson (reqs : List PaymentRequirements) : Json :=
  Json.arr (reqs.map (fun r => r.asJson))

/-- Model of `ensurePayment` from packages/x402/src/llm/index.ts (lines
375-587): build the requirement, read and decode the `X-PAYMENT` header,
select a matching requirement, and verify with the facilitator; every
failure renders a response, success hands the data to settlement. -/
def ensurePayment (env : GateEnv) (config : EnsurePaymentConfig) : EnsureRun :=
  match env.buildReq config with
  | .error resp => ⟨.failure resp, 0⟩
  | .ok requirement =>
    let paymentRequirements := [requirement]
    let em := config.errorMessages
    match env.header with
    | none =>
      ⟨.failure (buildPaymentRequiredResponse
        (orElseStr em.paymentRequired (X_PAYMENT_HEADER ++ str " header is required"))
        (acceptsJson paymentRequirements) []), 0⟩
    | some paymentHeader =>
      match env.decodePayment paymentHeader with
      | .error err =>
        ⟨.failure (buildPaymentRequiredResponse
          (orElseStr em.invalidPayment
            (if err.isErrorInstance then err.message else str "Invalid payment"))
          (acceptsJson paymentRequirements) []), 0⟩
      | .ok decoded =>
        let decodedPayment : PaymentPayload := { decoded with x402Version := X402_VERSION }
        match env.findMatching paymentRequirements decodedPayment with
        | none =>
          ⟨.failure (buildPaymentRequiredResponse
            (orElseStr em.noMatchingRequirements
              (str "Unable to find matching payment requirements"))
            (env.toJsonSafe (acceptsJson paymentRequirements)) []), 0⟩
        | some selectedRequirement =>
          match env.verify with
          | .error err =>
            let verificationError := err.message
            ⟨.failure (buildPaymentRequiredResponse
              (orElseStr em.verificationFailed verificationError)
              (acceptsJson paymentRequirements)
              [(str "verificationError", Json.str verificationError)]), 1⟩
          | .ok verification =>
            if !verification.isValid then
              ⟨.failure (buildPaymentRequiredResponse
                (orElseStr em.verificationFailed
                  (orElseStr verification.invalidReason (str "Payment verification failed")))
                (acceptsJson paymentRequirements)
                (match verification.payer with
                 | some p => [(str "payer", Json.str p)]
                 | none => [])), 1⟩
            else
              ⟨.success decodedPayment selectedRequirement paymentRequirements, 1⟩

/-- Settlement outcome paired with how often the facilitator's settle
operation was invoked and which inter-attempt delays were slept. -/
structure PaymentSettlementResult where
  ok : Bool
  response : Response
  settlement : Option SettleResponse
deriving Repr

/-- One run of the settle closure. -/
structure SettleRun where
  result : PaymentSettlementResult
  settleCalls : Nat
  delays : List Nat
deriving Repr

/-- Model of the `settlePayment` closure (lines 511-574): skip settlement on
an upstream error status; otherwise retry the facilitator settle operation
with default backoff, classifying an exhausted failure as 502 when the
error message embeds an HTTP status of at least 500 and as a 402 payment
challenge otherwise. -/
def settlePayment (env : GateEnv) (config : EnsurePaymentConfig)
    (paymentRequirements : List PaymentRequirements) (response : Response) : SettleRun :=
  if 400 ≤ response.status then
    ⟨⟨true, response, none⟩, 0, []⟩
  else
    let trace := retryWithBackoff env.settle {}
    match trace.outcome with
    | .ok settlement => ⟨⟨true, response, some settlement⟩, trace.callCount, trace.delays⟩
    | .error error =>
      let facilitatorStatus := extractFacilitatorStatus error
      if (match facilitatorStatus with
          | some s => decide (s ≠ 0) && decide (500 ≤ s)
          | none => false) then
        ⟨⟨false,
          { status := 502
            headers := JSON_RESPONSE_HEADERS
            body := Json.obj [(str "x402Version", Json.num 1),
              (str "error", Json.str (orElseStr config.errorMessages.settlementFailed
                (str "Settlement service is temporarily unavailable. Please retry."))),
              (str "accepts", env.toJsonSafe (acceptsJson paymentRequirements))] },
          none⟩, trace.callCount, trace.delays⟩
      else
        ⟨⟨false,
          buildPaymentRequiredResponse
            (orElseStr config.errorMessages.settlementFailed
              (if error.isErrorInstance then error.message else str "Settlement failed"))
            (acceptsJson paymentRequirements) [],
          none⟩, trace.callCount, trace.delays⟩

/-- `GateOptions`: the optional settlement callback and the
`settleOnError` flag ("if true, attempt to settle even when upstream
status >= 400" per its declaration comment). -/
structure GateOptions where
  onSettle : Option (PaymentSettlementResult → Except Thrown Unit) := none
  settleOnError : Bool := false

/-- A concrete config or a builder invoked with the speculatively decoded
payment (`EnsurePaymentConfigOrBuilder`). -/
inductive EnsurePaymentConfigOrBuilder where
  | concrete (config : EnsurePaymentConfig)
  | builder (build : Option PaymentPayload → EnsurePaymentConfig)

/-- Model of `tryDecodePaymentHeader`: best-effort, non-fatal decode of the
`X-PAYMENT` header for dynamic pricing; decode failures are swallowed. -/
def tryDecodePaymentHeader (env : GateEnv) : Option PaymentPayload :=
  match env.header with
  | none => none
  | some raw =>
    match env.decodePayment raw with
    | .ok decoded => some { decoded with x402Version := X402_VERSION }
    | .error _ => none

/-- Everything observable about one `gateWithX402Payment` run: its result
(`Except.error` means the call rejected with an uncaught exception) and how
often each external operation ran. -/
structure GateRun where
  result : Except Thrown Response
  verifyCalls : Nat
  handlerCalls : Nat
  settleCalls : Nat
  settleDelays : List Nat

/-- The settlement-evidence payload the gate builds from a successful
settlement (an absent payer is omitted, as `JSON.stringify` drops
`undefined` fields). -/
def paymentResponsePayload (settlement : SettleResponse) : Json :=
  Json.obj ([(str "success", Json.bool true),
    (str "transaction", Json.str settlement.transaction),
    (str "network", Json.str settlement.network)] ++
    (match settlement.payer with
     | some p => [(str "payer", Json.str p)]
     | none => []))

/-- Model of `X402LlmPayments.gateWithX402Payment` (lines 624-714): resolve
the config (through the builder if given), run `ensurePayment`, invoke the
protected handler (its exceptions are NOT caught — an `Except.error` from
the handler propagates straight into the run result), settle against a
clone of the upstream response, return the settlement's error response on
settlement failure, and otherwise attach the settlement-evidence header on
`success`, ensure the expose list names it, fire `onSettle` (exceptions
swallowed) and return the upstream response.

The source's `settleOnError` conditional (lines 662-665) has an EMPTY body
(it contains only comments describing an unimplemented plan), so the flag
has no effect here, exactly as in the source. -/
def gateWithX402Payment (env : GateEnv) (config : EnsurePaymentConfigOrBuilder)
    (options : GateOptions) : GateRun :=
  let rawPayment := tryDecodePaymentHeader env
  let concreteConfig :=
    match config with
    | .concrete c => c
    | .builder build => build rawPayment
  match ensurePayment env concreteConfig with
  | ⟨.failure resp, verifyCalls⟩ => ⟨.ok resp, verifyCalls, 0, 0, []⟩
  | ⟨.success _ _ paymentRequirements, verifyCalls⟩ =>
    match env.handler with
    | .error thrown => ⟨.error thrown, verifyCalls, 1, 0, []⟩
    | .ok upstreamResponse =>
      let settleRun := settlePayment env concreteConfig paymentRequirements upstreamResponse
      let settlementResult := settleRun.result
      if !settlementResult.ok then
        ⟨.ok settlementResult.response, verifyCalls, 1, settleRun.settleCalls, settleRun.delays⟩
      else
        let responseWithHeader :=
          match settlementResult.settlement with
          | some settlement =>
            if settlement.success then
              { upstreamResponse with
                headers := hset upstreamResponse.headers X_PAYMENT_RESPONSE_HEADER
                  (safeBase64Encode (jsonStringify (paymentResponsePayload settlement))) }
            else upstreamResponse
          | none => upstreamResponse
        let finalResponse :=
          { responseWithHeader with
            headers := ensurePaymentResponseIsExposed responseWithHeader.headers }
        let _onSettleOutcome := options.onSettle.map (fun f => f settlementResult)
        ⟨.ok finalResponse, verifyCalls, 1, settleRun.settleCalls, settleRun.delays⟩

/-- The in-memory IOU store of the OpenRouter proxy example
(`pendingByAddress`): a JavaScript `Map` from address strings to USD
amounts, modelled as an association list with `Map.set` update-or-append
semantics. Amounts are exact rationals, since the ledger only stores and
returns them. -/
abbrev DebtLedger := List (Str × Rat)

/-- Model of `getOwedUSD`: `pendingByAddress.get(addr) ?? 0`. -/
def getOwedUSD (m : DebtLedger) (addr : Str) : Rat :=
  (((m.find? (fun p => p.1 == addr)).map (fun p => p.2)).getD 0)

/-- Model of `setOwedUSD`: `pendingByAddress.set(addr, usd)`. -/
def setOwedUSD (m : DebtLedger) (addr : Str) (usd : Rat) : DebtLedger :=
  if m.any (fun p => p.1 == addr) then
    m.map (fun p => if p.1 == addr then (p.1, usd) else p)
  else m ++ [(addr, usd)]

/-- Rendering of a thrown value by string interpolation (`Error` instances
print as `Error: <message>`). -/
def renderThrown (e : Thrown) : Str :=
  if e.isErrorInstance then str "Error: " ++ e.message else e.message

/-- An MCP tool result: whether it is an error result, its structured and
text content, and the `_meta` payment-response entry when attached. -/
structure ToolResult where
  isError : Bool
  structured : Option Json
  text : Str
  meta : Option Json
deriving Repr

/-- Model of the `makeErrorResponse` helper inside `cbWithPayment`. -/
def makeErrorResponse (obj : Json) : ToolResult :=
  { isError := true, structured := some obj, text := jsonStringify obj, meta := none }

/-- The environment of one paid MCP tool call (`cbWithPayment` in
packages/x402/src/mcp/x402-mcp-server.ts): the payment metadata of the
request and the oracles for price conversion, payment decoding, the
facilitator, and the wrapped tool callback. -/
structure McpEnv where
  priceOk : Bool
  paymentMeta : Option Str
  decodePayment : Except Thrown PaymentPayload
  verify : Except Thrown VerificationResult
  cb : Except Thrown ToolResult
  settle : Except Thrown SettleResponse
  requirementJson : Json

/-- Model of `cbWithPayment` (lines 63-196 of the MCP server): price
conversion failure throws; a missing or undecodable payment yields an error
result; verification failures yield error results; the tool callback runs
inside a try/catch whose catch converts the exception into an error result;
settlement runs once (no retry here) only when execution succeeded, and a
settlement exception yields an error result. The second component counts
facilitator settle invocations. -/
def cbWithPayment (env : McpEnv) : Except Thrown ToolResult × Nat :=
  if !env.priceOk then
    (.error ⟨true, str "Failed to process price to atomic amount"⟩, 0)
  else
    let accepts := Json.arr [env.requirementJson]
    match env.paymentMeta with
    | none =>
      (.ok (makeErrorResponse (Json.obj [(str "x402Version", Json.num 1),
        (str "error", Json.str (str "_meta.x402/payment is required")),
        (str "accepts", accepts)])), 0)
    | some _ =>
      match env.decodePayment with
      | .error _ =>
        (.ok (makeErrorResponse (Json.obj [(str "x402Version", Json.num 1),
          (str "error", Json.str (str "Invalid payment")),
          (str "accepts", accepts)])), 0)
      | .ok _ =>
        match env.verify with
        | .error err =>
          (.ok (makeErrorResponse (Json.obj [(str "x402Version", Json.num 1),
            (str "error", Json.str (str "Verification failed: " ++ renderThrown err))])), 0)
        | .ok verification =>
          if !verification.isValid then
            (.ok (makeErrorResponse (Json.obj ([(str "x402Version", Json.num 1)] ++
              (match verification.invalidReason with
               | some r => [(str "error", Json.str r)]
               | none => []) ++
              [(str "accepts", accepts)] ++
              (match verification.payer with
               | some p => [(str "payer", Json.str p)]
               | none => [])))), 0)
          else
            let executed :=
              match env.cb with
              | .ok r => (r, r.isError)
              | .error err =>
                ({ isError := true, structured := none,
                   text := str "Tool execution failed: " ++ renderThrown err,
                   meta := none }, true)
            let result := executed.1
            let executionError := executed.2
            if !executionError then
              match env.settle with
              | .ok settlement =>
                if settlement.success then
                  (.ok { result with meta := some (paymentResponsePayload settlement) }, 1)
                else
                  (.ok result, 1)
              | .error settlementError =>
                (.ok (makeErrorResponse (Json.obj [(str "x402Version", Json.num 1),
                  (str "error",
                    Json.str (str "Settlement failed: " ++ renderThrown settlementError)),
                  (str "accepts", accepts)])), 1)
            else
              (.ok result, 0)

/-- JSON whitespace. -/
def isJsonWs (c : Char) : Bool := c = ' ' || c = '\t' || c = '\n' || c = '\x0d'

/-- Skip JSON whitespace. -/
def skipJsonWs (s : Str) : Str := s.dropWhile isJsonWs

/-- Hexadecimal digit value. -/
def hexVal (c : Char) : Option Nat :=
  let n := c.toNat
  if 48 ≤ n ∧ n ≤ 57 then some (n - 48)
  else if 97 ≤ n ∧ n ≤ 102 then some (n - 87)
  else if 65 ≤ n ∧ n ≤ 70 then some (n - 55)
  else none

/-- Reader of the four hex digits of a `\u` escape (lone surrogates are
rejected in this model, which only needs to invert what the stringifier
emits). -/
def readUnicodeEscape : Str → Option (Char × Str)
  | h1 :: h2 :: h3 :: h4 :: rest =>
    match hexVal h1, hexVal h2, hexVal h3, hexVal h4 with
    | some v1, some v2, some v3, some v4 =>
      let code := v1 * 4096 + v2 * 256 + v3 * 16 + v4
      if 0xD800 ≤ code && code < 0xE000 then none
      else some (Char.ofNat code, rest)
    | _, _, _, _ => none
  | _ => none

/-- Reader of the character following a backslash in a JSON string literal. -/
def readEscape : Str → Option (Char × Str)
  | [] => none
  | e :: rest =>
    if e = '"' then some ('"', rest)
    else if e = '\\' then some ('\\', rest)
    else if e = '/' then some ('/', rest)
    else if e = 'b' then some ('\x08', rest)
    else if e = 'f' then some ('\x0c', rest)
    else if e = 'n' then some ('\x0a', rest)
    else if e = 'r' then some ('\x0d', rest)
    else if e = 't' then some ('\x09', rest)
    else if e = 'u' then readUnicodeEscape rest
    else none

/-- Reader of a JSON string literal body (after the opening quote), up to
and including the closing quote; fuel bounds the number of characters
produced. -/
def parseStringBody : Nat → Str → Option (Str × Str)
  | _, [] => none
  | 0, _ :: _ => none
  | fuel + 1, c :: rest =>
    if c = '"' then some ([], rest)
    else if c = '\\' then
      match readEscape rest with
      | some dr => (parseStringBody fuel dr.2).map (fun p => (dr.1 :: p.1, p.2))
      | none => none
    else if c.toNat < 0x20 then none
    else (parseStringBody fuel rest).map (fun p => (c :: p.1, p.2))

/-- Value of a nonempty digit string. -/
def digitsToNat (ds : Str) : Nat := ds.foldl (fun acc c => acc * 10 + digitVal c) 0

/-- Reader of a JSON integer numeral (this model restricts `JSON.parse` to
integer numbers, which covers every value this code serializes; anything
else fails the parse and is observationally `undefined`). -/
def parseNumber (s : Str) : Option (Json × Str) :=
  match s with
  | '-' :: rest =>
    let ds := rest.takeWhile isDigitChar
    if ds.isEmpty then none
    else some (Json.num (-(Int.ofNat (digitsToNat ds))), rest.dropWhile isDigitChar)
  | _ =>
    let ds := s.takeWhile isDigitChar
    if ds.isEmpty then none
    else some (Json.num (Int.ofNat (digitsToNat ds)), s.dropWhile isDigitChar)

/-- Reader of the input following an empty-or-not array opening. -/
def parseArrayRest (k : Str → Option (List Json × Str)) : Str → Option (Json × Str)
  | ']' :: r2 => some (Json.arr [], r2)
  | r1 => (k r1).map (fun p => (Json.arr p.1, p.2))

/-- Reader of the input following an empty-or-not object opening. -/
def parseObjRest (k : Str → Option (List (Str × Json) × Str)) : Str → Option (Json × Str)
  | '\x7d' :: r2 => some (Json.obj [], r2)
  | r1 => (k r1).map (fun p => (Json.obj p.1, p.2))

/-- Reader of a colon token. -/
def expectColon : Str → Option Str
  | ':' :: r2 => some r2
  | _ => none

/-- Reader of an object member key and its colon. -/
def parseMemberKey : Str → Option (Str × Str)
  | '"' :: rest =>
    (parseStringBody (rest.length + 1) rest).bind fun p =>
    (expectColon (skipJsonWs p.2)).map fun r2 => (p.1, r2)
  | _ => none

/-- Reader of the separator after an array element: continue on a comma,
finish on the closing bracket. -/
def parseElemsSep (k : Str → Option (List Json × Str)) (v : Json) :
    Str → Option (List Json × Str)
  | ',' :: r2 => (k r2).map (fun p => (v :: p.1, p.2))
  | ']' :: r2 => some ([v], r2)
  | _ => none

/-- Reader of the separator after an object member. -/
def parseMembersSep (k : Str → Option (List (Str × Json) × Str)) (m : Str × Json) :
    Str → Option (List (Str × Json) × Str)
  | ',' :: r2 => (k r2).map (fun p => (m :: p.1, p.2))
  | '\x7d' :: r2 => some ([m], r2)
  | _ => none

mutual

/-- Recursive-descent JSON value reader; fuel bounds the recursion depth
and the number of container entries, so any fuel of at least the input
length suffices. -/
def parseValueGo : Nat → Str → Option (Json × Str)
  | 0, _ => none
  | fuel + 1, s0 =>
    match skipJsonWs s0 with
    | [] => none
    | c :: rest =>
      if c = '"' then (parseStringBody (rest.length + 1) rest).map (fun p => (Json.str p.1, p.2))
      else if c = '[' then parseArrayRest (parseElemsGo fuel) (skipJsonWs rest)
      else if c = '\x7b' then parseObjRest (parseMembersGo fuel) (skipJsonWs rest)
      else if c = 't' then
        if (str "rue").isPrefixOf rest then some (Json.bool true, rest.drop 3) else none
      else if c = 'f' then
        if (str "alse").isPrefixOf rest then some (Json.bool false, rest.drop 4) else none
      else if c = 'n' then
        if (str "ull").isPrefixOf rest then some (Json.null, rest.drop 3) else none
      else parseNumber (c :: rest)

/-- Reader of one-or-more array elements. -/
def parseElemsGo : Nat → Str → Option (List Json × Str)
  | 0, _ => none
  | fuel + 1, s =>
    match parseValueGo fuel s with
    | some vr => parseElemsSep (parseElemsGo fuel) vr.1 (skipJsonWs vr.2)
    | none => none

/-- Reader of one-or-more object members. -/
def parseMembersGo : Nat → Str → Option (List (Str × Json) × Str)
  | 0, _ => none
  | fuel + 1, s =>
    (parseMemberKey (skipJsonWs s)).bind fun kr =>
    (parseValueGo fuel kr.2).bind fun vr =>
    parseMembersSep (parseMembersGo fuel) (kr.1, vr.1) (skipJsonWs vr.2)

end

/-- Model of `JSON.parse` (restricted to integer numerals): parse one value
and require only whitespace to remain. -/
def jsonParse (s : Str) : Option Json :=
  match parseValueGo (s.length + 1) s with
  | some vr => if (skipJsonWs vr.2).isEmpty then some vr.1 else none
  | none => none

/-- Model of `decodePaymentResponseHeader` (packages/x402/src/llm/index.ts
lines 724-740): read the `X-PAYMENT-RESPONSE` header, normalize URL-safe
base64, decode and parse it, and return the JSON object only when it is a
truthy object whose `success` field is truthy; every failure path yields
`undefined` and nothing is thrown (the whole pipeline after the header read
sits inside a try/catch). -/
def decodePaymentResponseHeader (headers : HeaderMap) : Option Json :=
  (hget headers X_PAYMENT_RESPONSE_HEADER).bind fun header =>
  (bufferUtf8Decode (base64UrlToBase64 header)).bind fun text =>
  (jsonParse text).bind fun json =>
  if jsTruthyJson json && jsonIsObjectType json &&
      jsTruthy (jsonGetField json (str "success")) then
    some json
  else none

/-- The `Response` overload of `decodePaymentResponseHeader` reads the
response's headers. -/
def decodePaymentResponseHeaderOfResponse (r : Response) : Option Json :=
  decodePaymentResponseHeader r.headers

theorem hexVal_hexDigitChar (v : Nat) (hv : v < 16) : hexVal (hexDigitChar v) = some v := by
  revert v
  decide

theorem quoteChar_length_pos (c : Char) : 1 ≤ (quoteChar c).length := by
  unfold quoteChar
  split_ifs <;> simp

theorem quoteBody_length_ge (s : Str) : s.length ≤ ((s.map quoteChar).flatten).length := by
  induction s with
  | nil => simp
  | cons c cs ih =>
    rw [List.map_cons, List.flatten_cons, List.length_append, List.length_cons]
    have := quoteChar_length_pos c
    omega

theorem parseStringBody_quoteBody (s : Str) (r : Str) :
    ∀ fuel, s.length < fuel →
    parseStringBody fuel ((s.map quoteChar).flatten ++ '"' :: r) = some (s, r) := by
  induction s with
  | nil =>
    intro fuel hf
    cases fuel with
    | zero => omega
    | succ f => simp [parseStringBody]
  | cons c cs ih =>
    intro fuel hf
    cases fuel with
    | zero => omega
    | succ f =>
      have ihf := ih f (by simp only [List.length_cons] at hf; omega)
      rw [List.map_cons, List.flatten_cons, List.append_assoc]
      by_cases h1 : c = '"'
      · subst h1
        have hq : quoteChar '"' = ['\\', '"'] := by decide
        rw [hq, List.cons_append, List.cons_append, List.nil_append]
        simp [parseStringBody, readEscape, ihf]
      · by_cases h2 : c = '\\'
        · subst h2
          have hq : quoteChar '\\' = ['\\', '\\'] := by decide
          rw [hq, List.cons_append, List.cons_append, List.nil_append]
          simp [parseStringBody, readEscape, ihf]
        · by_cases h3 : c = '\x08'
          · subst h3
            have hq : quoteChar '\x08' = ['\\', 'b'] := by decide
            rw [hq, List.cons_append, List.cons_append, List.nil_append]
            simp [parseStringBody, readEscape, ihf]
          · by_cases h4 : c = '\x09'
            · subst h4
              have hq : quoteChar '\x09' = ['\\', 't'] := by decide
              rw [hq, List.cons_append, List.cons_append, List.nil_append]
              simp [parseStringBody, readEscape, ihf]
            · by_cases h5 : c = '\x0a'
              · subst h5
                have hq : quoteChar '\x0a' = ['\\', 'n'] := by decide
                rw [hq, List.cons_append, List.cons_append, List.nil_append]
                simp [parseStringBody, readEscape, ihf]
              · by_cases h6 : c = '\x0c'
                · subst h6
                  have hq : quoteChar '\x0c' = ['\\', 'f'] := by decide
                  rw [hq, List.cons_append, List.cons_append, List.nil_append]
                  simp [parseStringBody, readEscape, ihf]
                · by_cases h7 : c = '\x0d'
                  · subst h7
                    have hq : quoteChar '\x0d' = ['\\', 'r'] := by decide
                    rw [hq, List.cons_append, List.cons_append, List.nil_append]
                    simp [parseStringBody, readEscape, ihf]
                  · by_cases h8 : c.toNat < 0x20
                    · have hq : quoteChar c = ['\\', 'u', '0', '0',
                          hexDigitChar (c.toNat / 16), hexDigitChar (c.toNat % 16)] := by
                        unfold quoteChar
                        rw [if_neg h1, if_neg h2, if_neg h3, if_neg h4, if_neg h5,
                          if_neg h6, if_neg h7, if_pos h8]
                      rw [hq, List.cons_append, List.cons_append, List.cons_append,
                        List.cons_append, List.cons_append, List.cons_append, List.nil_append]
                      have hx1 : hexVal (hexDigitChar (c.toNat / 16)) = some (c.toNat / 16) :=
                        hexVal_hexDigitChar _ (by omega)
                      have hx2 : hexVal (hexDigitChar (c.toNat % 16)) = some (c.toNat % 16) :=
                        hexVal_hexDigitChar _ (by omega)
                      have hcode : 0 * 4096 + 0 * 256 + c.toNat / 16 * 16 + c.toNat % 16 =
                          c.toNat := by omega
                      have hofnat : Char.ofNat c.toNat = c := Char.ofNat_toNat c
                      have hnosur : ¬ ((0xD800 : Nat) ≤ c.toNat ∧ c.toNat < 0xE000) := by omega
                      have hx0 : hexVal '0' = some 0 := by decide
                      have hcode2 : c.toNat / 16 * 16 + c.toNat % 16 = c.toNat := by omega
                      simp [parseStringBody, readEscape, readUnicodeEscape, hx0, hx1, hx2,
                        hcode, hcode2, hofnat, hnosur, ihf]
                    · have hq : quoteChar c = [c] := by
                        unfold quoteChar
                        rw [if_neg h1, if_neg h2, if_neg h3, if_neg h4, if_neg h5,
                          if_neg h6, if_neg h7, if_neg h8]
                      rw [hq, List.cons_append, List.nil_append]
                      simp [parseStringBody, h1, h2, h8, ihf]

theorem skipJsonWs_cons_of_not (c : Char) (rest : Str) (h : isJsonWs c = false) :
    skipJsonWs (c :: rest) = c :: rest := by
  simp [skipJsonWs, List.dropWhile, h]

theorem skipJsonWs_quoteStr_append (k X : Str) :
    skipJsonWs (quoteStr k ++ X) = quoteStr k ++ X := by
  unfold quoteStr
  rw [List.cons_append]
  exact skipJsonWs_cons_of_not _ _ (by decide)

theorem parseValueGo_quote_cons (fuel : Nat) (rest : Str) :
    parseValueGo (fuel + 1) ('"' :: rest) =
      (parseStringBody (rest.length + 1) rest).map (fun p => (Json.str p.1, p.2)) := by
  simp only [parseValueGo]
  rw [skipJsonWs_cons_of_not _ _ (by decide)]
  simp

theorem parseValueGo_true (fuel : Nat) (r : Str) :
    parseValueGo (fuel + 1) (jsonStringify (Json.bool true) ++ r) = some (Json.bool true, r) := by
  have hstr : jsonStringify (Json.bool true) ++ r = 't' :: (str "rue" ++ r) := by
    simp only [jsonStringify]
    rfl
  rw [hstr]
  simp only [parseValueGo]
  rw [skipJsonWs_cons_of_not _ _ (by decide)]
  have hpre : (str "rue").isPrefixOf (str "rue" ++ r) = true := by
    rw [List.isPrefixOf_iff_prefix]
    exact List.prefix_append _ _
  have hdrop : (str "rue" ++ r).drop 3 = r := by
    have h := List.drop_left (str "rue") r
    exact h
  simp [hpre, hdrop]

theorem parseValueGo_str (fuel : Nat) (t r : Str) :
    parseValueGo (fuel + 1) (jsonStringify (Json.str t) ++ r) = some (Json.str t, r) := by
  have hstr : jsonStringify (Json.str t) ++ r =
      '"' :: ((t.map quoteChar).flatten ++ '"' :: r) := by
    simp only [jsonStringify]
    unfold quoteStr
    simp [List.append_assoc]
  rw [hstr, parseValueGo_quote_cons]
  have hlen : t.length < ((t.map quoteChar).flatten ++ '"' :: r).length + 1 := by
    have := quoteBody_length_ge t
    rw [List.length_append]
    omega
  rw [parseStringBody_quoteBody t r _ hlen]
  rfl

theorem parseMemberKey_quoteStr (k X : Str) :
    parseMemberKey (quoteStr k ++ ':' :: X) = some (k, X) := by
  have hq : quoteStr k ++ ':' :: X = '"' :: ((k.map quoteChar).flatten ++ '"' :: (':' :: X)) := by
    unfold quoteStr
    simp [List.append_assoc]
  rw [hq]
  simp only [parseMemberKey]
  have hlen : k.length < ((k.map quoteChar).flatten ++ '"' :: (':' :: X)).length + 1 := by
    have := quoteBody_length_ge k
    rw [List.length_append]
    omega
  rw [parseStringBody_quoteBody k (':' :: X) _ hlen]
  simp [expectColon, skipJsonWs, isJsonWs]

theorem jsonStringifyMembers_length_ge (fs : List (Str × Json)) :
    fs.length ≤ (jsonStringifyMembers fs).length := by
  induction fs with
  | nil => simp [jsonStringifyMembers]
  | cons m fs ih =>
    obtain ⟨k, v⟩ := m
    cases fs with
    | nil =>
      simp only [jsonStringifyMembers]
      simp [quoteStr]
    | cons m2 fs2 =>
      simp only [jsonStringifyMembers] at ih ⊢
      simp only [List.length_append, List.length_cons, List.length_append] at ih ⊢
      simp [quoteStr]
      omega

theorem parseMembersSep_comma (k : Str → Option (List (Str × Json) × Str))
    (m : Str × Json) (r2 : Str) :
    parseMembersSep k m (',' :: r2) = (k r2).map (fun p => (m :: p.1, p.2)) := rfl

theorem parseMembersSep_brace (k : Str → Option (List (Str × Json) × Str))
    (m : Str × Json) (r2 : Str) :
    parseMembersSep k m ('\x7d' :: r2) = some ([m], r2) := rfl

theorem parseMembersGo_succ (fuel : Nat) (s : Str) :
    parseMembersGo (fuel + 1) s =
      ((parseMemberKey (skipJsonWs s)).bind fun kr =>
      (parseValueGo fuel kr.2).bind fun vr =>
      parseMembersSep (parseMembersGo fuel) (kr.1, vr.1) (skipJsonWs vr.2)) := by
  simp only [parseMembersGo]

theorem parseMembersGo_stringify (fs : List (Str × Json)) (r : Str)
    (hv : ∀ p ∈ fs, ∀ f r2, parseValueGo (f + 1) (jsonStringify p.2 ++ r2) = some (p.2, r2)) :
    fs ≠ [] →
    ∀ fuel, fs.length ≤ fuel →
    parseMembersGo (fuel + 1) (jsonStringifyMembers fs ++ '\x7d' :: r) = some (fs, r) := by
  induction fs with
  | nil =>
    intro h
    exact absurd rfl h
  | cons m fs ih =>
    intro _ fuel hfuel
    obtain ⟨k, v⟩ := m
    have hvh := hv (k, v) (by simp)
    cases fuel with
    | zero => simp at hfuel
    | succ f =>
      cases fs with
      | nil =>
        have hm : jsonStringifyMembers [(k, v)] ++ '\x7d' :: r =
            quoteStr k ++ ':' :: (jsonStringify v ++ '\x7d' :: r) := by
          simp only [jsonStringifyMembers]
          simp [List.append_assoc]
        rw [hm]
        rw [parseMembersGo_succ]
        rw [skipJsonWs_quoteStr_append, parseMemberKey_quoteStr]
        simp only [Option.some_bind]
        rw [hvh f ('\x7d' :: r)]
        simp only [Option.some_bind]
        rw [skipJsonWs_cons_of_not _ _ (by decide)]
        rw [parseMembersSep_brace]
      | cons m2 fs2 =>
        have hm : jsonStringifyMembers ((k, v) :: m2 :: fs2) ++ '\x7d' :: r =
            quoteStr k ++ ':' :: (jsonStringify v ++ ',' ::
              (jsonStringifyMembers (m2 :: fs2) ++ '\x7d' :: r)) := by
          simp only [jsonStringifyMembers]
          simp [List.append_assoc]
        rw [hm]
        rw [parseMembersGo_succ]
        rw [skipJsonWs_quoteStr_append, parseMemberKey_quoteStr]
        simp only [Option.some_bind]
        rw [hvh f (',' :: (jsonStringifyMembers (m2 :: fs2) ++ '\x7d' :: r))]
        simp only [Option.some_bind]
        rw [skipJsonWs_cons_of_not _ _ (by decide)]
        have ihh := ih (fun p hp => hv p (by simp [hp])) (by simp) f
          (by simp only [List.length_cons] at hfuel ⊢; omega)
        rw [parseMembersSep_comma, ihh]
        rfl

theorem parseValueGo_obj_cons (fuel : Nat) (rest : Str) :
    parseValueGo (fuel + 1) ('\x7b' :: rest) =
      parseObjRest (parseMembersGo fuel) (skipJsonWs rest) := by
  simp only [parseValueGo]
  rw [skipJsonWs_cons_of_not _ _ (by decide)]
  simp

theorem parseObjRest_quote (k : Str → Option (List (Str × Json) × Str)) (rest : Str) :
    parseObjRest k ('"' :: rest) = (k ('"' :: rest)).map (fun p => (Json.obj p.1, p.2)) := rfl

theorem jsonParse_stringify_obj (fs : List (Str × Json))
    (hv : ∀ p ∈ fs, ∀ f r2, parseValueGo (f + 1) (jsonStringify p.2 ++ r2) = some (p.2, r2)) :
    ∀ k1 v1 fs2, fs = (k1, v1) :: fs2 →
    jsonParse (jsonStringify (Json.obj fs)) = some (Json.obj fs) := by
  intro k1 v1 fs2 hfs
  have hstr : jsonStringify (Json.obj fs) =
      '\x7b' :: (jsonStringifyMembers fs ++ '\x7d' :: []) := by
    simp [jsonStringify]
  have htail : ∃ tail, jsonStringifyMembers fs ++ '\x7d' :: [] = quoteStr k1 ++ ':' :: tail := by
    subst hfs
    cases fs2 with
    | nil =>
      refine ⟨jsonStringify v1 ++ '\x7d' :: [], ?_⟩
      simp only [jsonStringifyMembers]
      simp [List.append_assoc]
    | cons m2 fs3 =>
      refine ⟨jsonStringify v1 ++ ',' ::
        (jsonStringifyMembers (m2 :: fs3) ++ '\x7d' :: []), ?_⟩
      simp only [jsonStringifyMembers]
      simp [List.append_assoc]
  obtain ⟨tail, htail⟩ := htail
  have hT : jsonStringifyMembers fs ++ '\x7d' :: [] =
      '"' :: ((k1.map quoteChar).flatten ++ '"' :: (':' :: tail)) := by
    rw [htail]
    unfold quoteStr
    simp [List.append_assoc]
  rw [hstr]
  unfold jsonParse
  simp only [List.length_cons]
  rw [parseValueGo_obj_cons]
  rw [hT, skipJsonWs_cons_of_not _ _ (by decide), parseObjRest_quote, ← hT]
  have hle : fs.length ≤ (jsonStringifyMembers fs ++ '\x7d' :: []).length := by
    have := jsonStringifyMembers_length_ge fs
    rw [List.length_append]
    omega
  rw [parseMembersGo_stringify fs [] hv (by rw [hfs]; simp)
    ((jsonStringifyMembers fs ++ '\x7d' :: []).length) hle]
  simp [skipJsonWs]

/-- Round trip of the settlement-evidence payload through the model of
`JSON.stringify` and `JSON.parse`. -/
theorem jsonParse_paymentResponsePayload (s : SettleResponse) :
    jsonParse (jsonStringify (paymentResponsePayload s)) =
      some (paymentResponsePayload s) := by
  unfold paymentResponsePayload
  rcases hp : s.payer with _ | p
  · simp only [hp, List.append_nil]
    refine jsonParse_stringify_obj _ ?_ (str "success") (Json.bool true)
      [(str "transaction", Json.str s.transaction),
       (str "network", Json.str s.network)] rfl
    intro q hq f r2
    fin_cases hq
    · exact parseValueGo_true f r2
    · exact parseValueGo_str f _ r2
    · exact parseValueGo_str f _ r2
  · simp only [hp, List.cons_append, List.nil_append]
    refine jsonParse_stringify_obj _ ?_ (str "success") (Json.bool true)
      [(str "transaction", Json.str s.transaction),
       (str "network", Json.str s.network),
       (str "payer", Json.str p)] rfl
    intro q hq f r2
    fin_cases hq
    · exact parseValueGo_true f r2
    · exact parseValueGo_str f _ r2
    · exact parseValueGo_str f _ r2
    · exact parseValueGo_str f _ r2

/-- Success characterization of `ensurePayment`, shared by the gate-level
claims: when requirement building, header presence, decoding, matching and
verification all succeed, the run returns the stamped payload, the selected
requirement and the singleton requirements array, after exactly one verify
call. -/
theorem ensurePayment_success (env : GateEnv) (config : EnsurePaymentConfig)
    (raw : Str) (pl : PaymentPayload) (req sel : PaymentRequirements)
    (verification : VerificationResult)
    (hb : env.buildReq config = Except.ok req)
    (hh : env.header = some raw)
    (hd : env.decodePayment raw = Except.ok pl)
    (hm : env.findMatching [req] { pl with x402Version := X402_VERSION } = some sel)
    (hv : env.verify = Except.ok verification)
    (hvalid : verification.isValid = true) :
    ensurePayment env config =
      ⟨.success { pl with x402Version := X402_VERSION } sel [req], 1⟩ := by
  unfold ensurePayment
  rw [hb]
  dsimp only
  rw [hh]
  dsimp only
  rw [hd]
  dsimp only
  rw [hm]
  dsimp only
  rw [hv]
  dsimp only
  rw [hvalid]
  simp

/-- A minimal opaque requirement for concrete runs. -/
def sampleRequirement : PaymentRequirements := ⟨Json.null⟩

/-- A minimal concrete gate config. -/
def sampleConfig : EnsurePaymentConfig :=
  { price := 1, network := str "base-sepolia", payTo := str "0xseller", errorMessages := {} }

/-- A concrete valid verification result. -/
def sampleVerification : VerificationResult := ⟨true, none, some (str "0xPayer")⟩

/-- A concrete successful settlement. -/
def sampleSettlement : SettleResponse :=
  ⟨true, str "0xtx", str "base-sepolia", some (str "0xPayer")⟩

/-- A concrete successful upstream response. -/
def sampleUpstream : Response :=
  ⟨200, [(str "content-type", str "application/json")], Json.str (str "result")⟩

/-- A concrete environment in which every collaborator succeeds. -/
def baseEnv : GateEnv :=
  { buildReq := fun _ => .ok sampleRequirement
    header := some (str "credential")
    decodePayment := fun raw => .ok ⟨0, raw⟩
    findMatching := fun reqs _ => reqs.head?
    verify := .ok sampleVerification
    settle := fun _ => .ok sampleSettlement
    toJsonSafe := fun j => j
    handler := .ok sampleUpstream }

/-- C1: settlement retry performs up to 3 attempts by default, with the
delay before attempt `k` (zero-based delay index `i = k - 2`) equal to
`min(150 * 2 ^ i, 1000)`; in particular a settle operation that fails on the
first two attempts and succeeds on the third is called exactly 3 times with
delays 150ms then 300ms, and settlement returns the successful result. -/
theorem settlement_retry_default_backoff {α : Type} (env : GateEnv)
    (config : EnsurePaymentConfig) (reqs : List PaymentRequirements) (response : Response)
    (e0 e1 : Thrown) (s : SettleResponse)
    (hst : response.status < 400)
    (h0 : env.settle 0 = Except.error e0)
    (h1 : env.settle 1 = Except.error e1)
    (h2 : env.settle 2 = Except.ok s) :
    settlePayment env config reqs response = ⟨⟨true, response, some s⟩, 3, [150, 300]⟩ ∧
    ∀ op2 : Nat → Except Thrown α,
      (retryWithBackoff op2 {}).callCount ≤ 3 ∧
      (retryWithBackoff op2 {}).delays =
        (List.range ((retryWithBackoff op2 {}).callCount - 1)).map
          (fun i => min (150 * 2 ^ i) 1000) := by
  constructor
  · unfold settlePayment
    rw [if_neg (by omega)]
    rw [retryWithBackoff_first_success env.settle {} 2 s (by decide)
      (fun i hi => by
        interval_cases i
        · exact ⟨e0, h0⟩
        · exact ⟨e1, h1⟩) h2]
    simp [List.range]
    decide
  · intro op2
    cases hop0 : op2 0 with
    | ok v0 =>
      rw [retryWithBackoff_first_success op2 {} 0 v0 (by decide)
        (fun i hi => absurd hi (by omega)) hop0]
      exact ⟨by simp, by simp⟩
    | error f0 =>
      cases hop1 : op2 1 with
      | ok v1 =>
        rw [retryWithBackoff_first_success op2 {} 1 v1 (by decide)
          (fun i hi => by
            interval_cases i
            exact ⟨f0, hop0⟩) hop1]
        exact ⟨by simp, by simp⟩
      | error f1 =>
        cases hop2 : op2 2 with
        | ok v2 =>
          rw [retryWithBackoff_first_success op2 {} 2 v2 (by decide)
            (fun i hi => by
              interval_cases i
              · exact ⟨f0, hop0⟩
              · exact ⟨f1, hop1⟩) hop2]
          exact ⟨by simp, by simp⟩
        | error f2 =>
          rw [retryWithBackoff_exhausted op2 {}
            (fun i => if i = 0 then f0 else if i = 1 then f1 else f2) (by decide)
            (fun i hi => by
              have hi3 : i < 3 := hi
              interval_cases i
              · simpa using hop0
              · simpa using hop1
              · simpa using hop2)]
          exact ⟨by simp, by simp⟩

/-- Concrete settle oracle failing twice before succeeding. -/
def envFailTwice : GateEnv :=
  { baseEnv with
    settle := fun n =>
      if n < 2 then Except.error ⟨true, str "ECONNRESET"⟩ else Except.ok sampleSettlement }

/-- Witness for C1 at a concrete environment. -/
theorem settlement_retry_default_backoff_witness :
    settlePayment envFailTwice sampleConfig [sampleRequirement] sampleUpstream =
      ⟨⟨true, sampleUpstream, some sampleSettlement⟩, 3, [150, 300]⟩ ∧
    ∀ op2 : Nat → Except Thrown Nat,
      (retryWithBackoff op2 {}).callCount ≤ 3 ∧
      (retryWithBackoff op2 {}).delays =
        (List.range ((retryWithBackoff op2 {}).callCount - 1)).map
          (fun i => min (150 * 2 ^ i) 1000) :=
  settlement_retry_default_backoff envFailTwice sampleConfig [sampleRequirement]
    sampleUpstream ⟨true, str "ECONNRESET"⟩ ⟨true, str "ECONNRESET"⟩ sampleSettlement
    (by decide) rfl rfl rfl

/-- C2: when settlement retries are exhausted, the failure is classified by
the final re-thrown error's message: an embedded `Failed to settle payment:
ddd` status of at least 500 yields a 502 ServiceUnavailable response, and
anything else yields the generic 402 payment-challenge shape; in particular
a facilitator whose settle calls all fail with embedded status 503 makes the
gate return 502, not 402. -/
theorem settlement_failure_classification (env : GateEnv) (config : EnsurePaymentConfig)
    (e : Nat → Thrown)
    (hfail : ∀ i, i < 3 → env.settle i = Except.error (e i)) :
    (∀ reqs response, response.status < 400 →
       (settlePayment env config reqs response).result.ok = false ∧
       (settlePayment env config reqs response).result.response.status =
         (match extractFacilitatorStatus (rethrownError (some (e 2))) with
          | some s => if s ≠ 0 ∧ 500 ≤ s then 502 else 402
          | none => 402)) ∧
    (∀ raw pl req sel verification upstream,
       extractFacilitatorStatus (e 2) = some 503 →
       (e 2).isErrorInstance = true →
       env.buildReq config = Except.ok req →
       env.header = some raw →
       env.decodePayment raw = Except.ok pl →
       env.findMatching [req] { pl with x402Version := X402_VERSION } = some sel →
       env.verify = Except.ok verification →
       verification.isValid = true →
       env.handler = Except.ok upstream →
       upstream.status < 400 →
       ((gateWithX402Payment env (.concrete config) {}).result.map (fun r => r.status)) =
         Except.ok 502) := by
  have hclass : ∀ reqs response, response.status < 400 →
      (settlePayment env config reqs response).result.ok = false ∧
      (settlePayment env config reqs response).result.response.status =
        (match extractFacilitatorStatus (rethrownError (some (e 2))) with
         | some s => if s ≠ 0 ∧ 500 ≤ s then 502 else 402
         | none => 402) := by
    intro reqs response hst
    unfold settlePayment
    rw [if_neg (by omega)]
    rw [retryWithBackoff_exhausted env.settle {} e (by decide) (fun i hi => hfail i hi)]
    have h21 : ({} : RetryOptions).maxAttempts - 1 = 2 := by decide
    rw [h21]
    dsimp only
    rcases hx : extractFacilitatorStatus (rethrownError (some (e 2))) with _ | s
    · simp [hx, buildPaymentRequiredResponse]
    · by_cases hcond : s ≠ 0 ∧ 500 ≤ s
      · have hbt : (decide (s ≠ 0) && decide (500 ≤ s)) = true := by
          simp only [Bool.and_eq_true, decide_eq_true_eq]
          exact hcond
        simp [hx, hbt, hcond]
      · have hbf : (decide (s ≠ 0) && decide (500 ≤ s)) = false := by
          simp only [Bool.and_eq_false_iff, decide_eq_false_iff_not]
          tauto
        simp [hx, hbf, hcond, buildPaymentRequiredResponse]
  refine ⟨hclass, ?_⟩
  intro raw pl req sel verification upstream h503 herr hb hh hd hm hv hvalid hhandler hst
  obtain ⟨hok, hstatus⟩ := hclass [req] upstream hst
  have hstatus502 : (settlePayment env config [req] upstream).result.response.status = 502 := by
    rw [hstatus]
    have hre : rethrownError (some (e 2)) = e 2 := by
      simp [rethrownError, herr]
    rw [hre, h503]
    simp
  have hens := ensurePayment_success env config raw pl req sel verification hb hh hd hm hv hvalid
  simp only [gateWithX402Payment]
  rw [hens]
  dsimp only
  rw [hhandler]
  dsimp only
  rw [hok]
  show Except.ok ((settlePayment env config [req] upstream).result.response.status) =
    Except.ok (502 : Nat)
  rw [hstatus502]

/-- Concrete facilitator whose settle calls always fail with an embedded 503. -/
def envAll503 : GateEnv :=
  { baseEnv with
    settle := fun _ =>
      Except.error ⟨true, str "Failed to settle payment: 503 Service Unavailable"⟩ }

/-- Witness for C2 at a concrete always-503 environment. -/
theorem settlement_failure_classification_witness :
    (∀ reqs response, response.status < 400 →
       (settlePayment envAll503 sampleConfig reqs response).result.ok = false ∧
       (settlePayment envAll503 sampleConfig reqs response).result.response.status =
         (match extractFacilitatorStatus (rethrownError (some
             ⟨true, str "Failed to settle payment: 503 Service Unavailable"⟩)) with
          | some s => if s ≠ 0 ∧ 500 ≤ s then 502 else 402
          | none => 402)) ∧
    (∀ raw pl req sel verification upstream,
       extractFacilitatorStatus ⟨true, str "Failed to settle payment: 503 Service Unavailable"⟩ =
         some 503 →
       (⟨true, str "Failed to settle payment: 503 Service Unavailable"⟩ : Thrown).isErrorInstance
         = true →
       envAll503.buildReq sampleConfig = Except.ok req →
       envAll503.header = some raw →
       envAll503.decodePayment raw = Except.ok pl →
       envAll503.findMatching [req] { pl with x402Version := X402_VERSION } = some sel →
       envAll503.verify = Except.ok verification →
       verification.isValid = true →
       envAll503.handler = Except.ok upstream →
       upstream.status < 400 →
       ((gateWithX402Payment envAll503 (.concrete sampleConfig) {}).result.map
         (fun r => r.status)) = Except.ok 502) :=
  settlement_failure_classification envAll503 sampleConfig
    (fun _ => ⟨true, str "Failed to settle payment: 503 Service Unavailable"⟩)
    (fun _ _ => rfl)


theorem ensureExposed_id_of_absent (h : HeaderMap)
    (habs : hget h X_PAYMENT_RESPONSE_HEADER = none) :
    ensurePaymentResponseIsExposed h = h := by
  have hh : hhas h X_PAYMENT_RESPONSE_HEADER = false := by simp [hhas, habs]
  unfold ensurePaymentResponseIsExposed
  rw [hh]
  simp

theorem gateRun_of_app_failure (env : GateEnv) (config : EnsurePaymentConfig)
    (options : GateOptions) (raw : Str) (pl : PaymentPayload)
    (req sel : PaymentRequirements) (verification : VerificationResult) (upstream : Response)
    (hb : env.buildReq config = Except.ok req)
    (hh : env.header = some raw)
    (hd : env.decodePayment raw = Except.ok pl)
    (hm : env.findMatching [req] { pl with x402Version := X402_VERSION } = some sel)
    (hv : env.verify = Except.ok verification)
    (hvalid : verification.isValid = true)
    (hhandler : env.handler = Except.ok upstream)
    (hst : 400 ≤ upstream.status) :
    settlePayment env config [req] upstream = ⟨⟨true, upstream, none⟩, 0, []⟩ ∧
    gateWithX402Payment env (.concrete config) options =
      ⟨Except.ok { upstream with headers := ensurePaymentResponseIsExposed upstream.headers },
        1, 1, 0, []⟩ := by
  have hskip : settlePayment env config [req] upstream = ⟨⟨true, upstream, none⟩, 0, []⟩ := by
    unfold settlePayment
    rw [if_pos hst]
  have hens := ensurePayment_success env config raw pl req sel verification hb hh hd hm hv hvalid
  refine ⟨hskip, ?_⟩
  simp only [gateWithX402Payment]
  rw [hens]
  dsimp only
  rw [hhandler]
  dsimp only
  rw [hskip]
  rfl

/-- C3: when the protected operation yields an application-level failure
(status at least 400), the settle step performs zero facilitator settle
calls and reports ok-with-no-settlement, and the gate returns the failure
response with only `ensurePaymentResponseIsExposed` applied to its headers;
in particular the response is returned unchanged whenever it does not
already carry an `X-PAYMENT-RESPONSE` header. -/
theorem settlement_skipped_on_app_failure (env : GateEnv) (config : EnsurePaymentConfig)
    (options : GateOptions) (raw : Str) (pl : PaymentPayload)
    (req sel : PaymentRequirements) (verification : VerificationResult) (upstream : Response)
    (hb : env.buildReq config = Except.ok req)
    (hh : env.header = some raw)
    (hd : env.decodePayment raw = Except.ok pl)
    (hm : env.findMatching [req] { pl with x402Version := X402_VERSION } = some sel)
    (hv : env.verify = Except.ok verification)
    (hvalid : verification.isValid = true)
    (hhandler : env.handler = Except.ok upstream)
    (hst : 400 ≤ upstream.status) :
    settlePayment env config [req] upstream = ⟨⟨true, upstream, none⟩, 0, []⟩ ∧
    (gateWithX402Payment env (.concrete config) options).settleCalls = 0 ∧
    (gateWithX402Payment env (.concrete config) options).result =
      Except.ok { upstream with headers := ensurePaymentResponseIsExposed upstream.headers } ∧
    (hget upstream.headers X_PAYMENT_RESPONSE_HEADER = none →
      (gateWithX402Payment env (.concrete config) options).result = Except.ok upstream) := by
  obtain ⟨hskip, hgate⟩ := gateRun_of_app_failure env config options raw pl req sel
    verification upstream hb hh hd hm hv hvalid hhandler hst
  refine ⟨hskip, by rw [hgate], by rw [hgate], ?_⟩
  intro habs
  rw [hgate, ensureExposed_id_of_absent upstream.headers habs]

/-- Concrete environment whose protected operation fails with status 500. -/
def envUpstream500 : GateEnv :=
  { baseEnv with handler := .ok ⟨500, [], Json.str (str "upstream error")⟩ }

/-- Witness for C3 at a concrete failing upstream. -/
theorem settlement_skipped_on_app_failure_witness :
    settlePayment envUpstream500 sampleConfig [sampleRequirement]
        ⟨500, [], Json.str (str "upstream error")⟩ =
      ⟨⟨true, ⟨500, [], Json.str (str "upstream error")⟩, none⟩, 0, []⟩ ∧
    (gateWithX402Payment envUpstream500 (.concrete sampleConfig) {}).settleCalls = 0 ∧
    (gateWithX402Payment envUpstream500 (.concrete sampleConfig) {}).result =
      Except.ok { (⟨500, [], Json.str (str "upstream error")⟩ : Response) with
        headers := ensurePaymentResponseIsExposed
          (⟨500, [], Json.str (str "upstream error")⟩ : Response).headers } ∧
    (hget (⟨500, [], Json.str (str "upstream error")⟩ : Response).headers
        X_PAYMENT_RESPONSE_HEADER = none →
      (gateWithX402Payment envUpstream500 (.concrete sampleConfig) {}).result =
        Except.ok ⟨500, [], Json.str (str "upstream error")⟩) :=
  settlement_skipped_on_app_failure envUpstream500 sampleConfig {} (str "credential")
    ⟨0, str "credential"⟩ sampleRequirement sampleRequirement sampleVerification
    ⟨500, [], Json.str (str "upstream error")⟩ rfl rfl rfl rfl rfl rfl rfl (by decide)

/-- C4 (code defect): `settleOnError` is documented to force a settlement
attempt even when the upstream status is at least 400, but the conditional
that should implement it has an empty body in the source, so with
`settleOnError := true` and a failing upstream the facilitator settle
operation is still never invoked and the gate behaves identically to
`settleOnError := false`. -/
theorem settleOnError_flag_has_no_effect (env : GateEnv) (config : EnsurePaymentConfig)
    (onSettleCb : Option (PaymentSettlementResult → Except Thrown Unit))
    (raw : Str) (pl : PaymentPayload) (req sel : PaymentRequirements)
    (verification : VerificationResult) (upstream : Response)
    (hb : env.buildReq config = Except.ok req)
    (hh : env.header = some raw)
    (hd : env.decodePayment raw = Except.ok pl)
    (hm : env.findMatching [req] { pl with x402Version := X402_VERSION } = some sel)
    (hv : env.verify = Except.ok verification)
    (hvalid : verification.isValid = true)
    (hhandler : env.handler = Except.ok upstream)
    (hst : 400 ≤ upstream.status) :
    (gateWithX402Payment env (.concrete config)
      { onSettle := onSettleCb, settleOnError := true }).settleCalls = 0 ∧
    gateWithX402Payment env (.concrete config) { onSettle := onSettleCb, settleOnError := true }
      = gateWithX402Payment env (.concrete config)
          { onSettle := onSettleCb, settleOnError := false } := by
  obtain ⟨_, h1⟩ := gateRun_of_app_failure env config
    { onSettle := onSettleCb, settleOnError := true } raw pl req sel verification upstream
    hb hh hd hm hv hvalid hhandler hst
  obtain ⟨_, h2⟩ := gateRun_of_app_failure env config
    { onSettle := onSettleCb, settleOnError := false } raw pl req sel verification upstream
    hb hh hd hm hv hvalid hhandler hst
  exact ⟨by rw [h1], by rw [h1, h2]⟩

/-- Witness for C4: with `settleOnError := true` and a status-500 upstream,
the gate still performs zero settle calls. -/
theorem settleOnError_flag_has_no_effect_witness :
    (gateWithX402Payment envUpstream500 (.concrete sampleConfig)
      { onSettle := none, settleOnError := true }).settleCalls = 0 ∧
    gateWithX402Payment envUpstream500 (.concrete sampleConfig)
        { onSettle := none, settleOnError := true }
      = gateWithX402Payment envUpstream500 (.concrete sampleConfig)
          { onSettle := none, settleOnError := false } :=
  settleOnError_flag_has_no_effect envUpstream500 sampleConfig none (str "credential")
    ⟨0, str "credential"⟩ sampleRequirement sampleRequirement sampleVerification
    ⟨500, [], Json.str (str "upstream error")⟩ rfl rfl rfl rfl rfl rfl rfl (by decide)

/-- Concrete environment whose protected operation throws. -/
def envThrowing : GateEnv :=
  { baseEnv with handler := .error ⟨true, str "boom"⟩ }

/-- Counterexample to C5 as stated: in the HTTP gate the protected
operation is awaited outside any try/catch, so its exception propagates
out of the gate operation instead of being converted into an
application-level failure result. -/
theorem gate_rethrows_protected_exception :
    (gateWithX402Payment envThrowing (.concrete sampleConfig) {}).result
      = Except.error ⟨true, str "boom"⟩ := rfl

/-- C5 (amended): exception handling around the protected operation differs
between the two gates. In the HTTP gate (`gateWithX402Payment`), an
exception thrown by the protected operation after successful verification
propagates to the caller (it is re-thrown, with no settlement attempt); it
is only the MCP wrapper (`cbWithPayment`) that catches the tool callback's
exception and converts it into an application-level error result with zero
settle calls. -/
theorem protected_exception_scoped_to_mcp
    (env : GateEnv) (config : EnsurePaymentConfig) (options : GateOptions)
    (raw : Str) (pl : PaymentPayload) (req sel : PaymentRequirements)
    (verification : VerificationResult) (t : Thrown)
    (menv : McpEnv) (tm : Thrown) (m : Str) (mpl : PaymentPayload)
    (mver : VerificationResult)
    (hb : env.buildReq config = Except.ok req)
    (hh : env.header = some raw)
    (hd : env.decodePayment raw = Except.ok pl)
    (hm : env.findMatching [req] { pl with x402Version := X402_VERSION } = some sel)
    (hv : env.verify = Except.ok verification)
    (hvalid : verification.isValid = true)
    (hhandler : env.handler = Except.error t)
    (hprice : menv.priceOk = true)
    (hmeta : menv.paymentMeta = some m)
    (hdec : menv.decodePayment = Except.ok mpl)
    (hver : menv.verify = Except.ok mver)
    (hmvalid : mver.isValid = true)
    (hcb : menv.cb = Except.error tm) :
    ((gateWithX402Payment env (.concrete config) options).result = Except.error t ∧
     (gateWithX402Payment env (.concrete config) options).settleCalls = 0) ∧
    cbWithPayment menv =
      (Except.ok ⟨true, none, str "Tool execution failed: " ++ renderThrown tm, none⟩, 0) := by
  constructor
  · have hgate : gateWithX402Payment env (.concrete config) options =
        ⟨Except.error t, 1, 1, 0, []⟩ := by
      simp only [gateWithX402Payment]
      rw [ensurePayment_success env config raw pl req sel verification hb hh hd hm hv hvalid]
      dsimp only
      rw [hhandler]
    exact ⟨by rw [hgate], by rw [hgate]⟩
  · simp [cbWithPayment, hprice, hmeta, hdec, hver, hmvalid, hcb]

/-- Concrete MCP environment whose tool callback throws. -/
def mcpEnvThrowing : McpEnv :=
  { priceOk := true, paymentMeta := some (str "pm"),
    decodePayment := .ok ⟨1, str "pm"⟩,
    verify := .ok sampleVerification,
    cb := .error ⟨true, str "tool boom"⟩,
    settle := .ok sampleSettlement,
    requirementJson := Json.null }

/-- Witness for the amended C5 at concrete throwing environments. -/
theorem protected_exception_scoped_to_mcp_witness :
    ((gateWithX402Payment envThrowing (.concrete sampleConfig) {}).result
        = Except.error ⟨true, str "boom"⟩ ∧
      (gateWithX402Payment envThrowing (.concrete sampleConfig) {}).settleCalls = 0) ∧
    cbWithPayment mcpEnvThrowing =
      (Except.ok ⟨true, none,
        str "Tool execution failed: " ++ renderThrown ⟨true, str "tool boom"⟩, none⟩, 0) :=
  protected_exception_scoped_to_mcp envThrowing sampleConfig {} (str "credential")
    ⟨0, str "credential"⟩ sampleRequirement sampleRequirement sampleVerification
    ⟨true, str "boom"⟩ mcpEnvThrowing ⟨true, str "tool boom"⟩ (str "pm") ⟨1, str "pm"⟩
    sampleVerification rfl rfl rfl rfl rfl rfl rfl rfl rfl rfl rfl rfl rfl

/-- C6: when the `X-PAYMENT` header is present but fails structural decode,
the gate returns the 402 payment-challenge response built from the
`invalidPayment` message (defaulting to the decode error's own message for
`Error` instances and to "Invalid payment" otherwise), and the facilitator
verify operation, the protected operation and the facilitator settle
operation are each invoked zero times. -/
theorem malformed_payment_rejected_without_calls (env : GateEnv)
    (config : EnsurePaymentConfig) (options : GateOptions) (raw : Str) (t : Thrown)
    (req : PaymentRequirements)
    (hb : env.buildReq config = Except.ok req)
    (hh : env.header = some raw)
    (hd : env.decodePayment raw = Except.error t) :
    gateWithX402Payment env (.concrete config) options =
      ⟨Except.ok (buildPaymentRequiredResponse
          (orElseStr config.errorMessages.invalidPayment
            (if t.isErrorInstance then t.message else str "Invalid payment"))
          (acceptsJson [req]) []), 0, 0, 0, []⟩ ∧
    (gateWithX402Payment env (.concrete config) options).result.map
      (fun r => r.status) = Except.ok 402 := by
  have hens : ensurePayment env config =
      ⟨.failure (buildPaymentRequiredResponse
        (orElseStr config.errorMessages.invalidPayment
          (if t.isErrorInstance then t.message else str "Invalid payment"))
        (acceptsJson [req]) []), 0⟩ := by
    simp only [ensurePayment]
    rw [hb]
    dsimp only
    rw [hh]
    dsimp only
    rw [hd]
  have hgate : gateWithX402Payment env (.concrete config) options =
      ⟨Except.ok (buildPaymentRequiredResponse
          (orElseStr config.errorMessages.invalidPayment
            (if t.isErrorInstance then t.message else str "Invalid payment"))
          (acceptsJson [req]) []), 0, 0, 0, []⟩ := by
    simp only [gateWithX402Payment]
    rw [hens]
  exact ⟨hgate, by rw [hgate]; rfl⟩

/-- Concrete environment whose payment-header decode always throws. -/
def envBadDecode : GateEnv :=
  { baseEnv with decodePayment := fun _ => .error ⟨true, str "bad payment"⟩ }

/-- Witness for C6 at a concrete undecodable header. -/
theorem malformed_payment_rejected_without_calls_witness :
    gateWithX402Payment envBadDecode (.concrete sampleConfig) {} =
      ⟨Except.ok (buildPaymentRequiredResponse
          (orElseStr sampleConfig.errorMessages.invalidPayment
            (if (⟨true, str "bad payment"⟩ : Thrown).isErrorInstance
             then (⟨true, str "bad payment"⟩ : Thrown).message
             else str "Invalid payment"))
          (acceptsJson [sampleRequirement]) []), 0, 0, 0, []⟩ ∧
    (gateWithX402Payment envBadDecode (.concrete sampleConfig) {}).result.map
      (fun r => r.status) = Except.ok 402 :=
  malformed_payment_rejected_without_calls envBadDecode sampleConfig {} (str "credential")
    ⟨true, str "bad payment"⟩ sampleRequirement rfl rfl rfl

/-- Counterexample to C7 as stated: the ledger keys are NOT
lowercase-normalized — after recording a debt of $0.02 under the
mixed-case address "0xAB", a lookup with the lowercase spelling "0xab" of
the same address returns 0, not 0.02. -/
theorem debt_ledger_not_case_normalized :
    getOwedUSD (setOwedUSD [] (str "0xAB") (1 / 50)) (str "0xab") = 0 ∧
    (1 / 50 : Rat) ≠ 0 := by
  constructor
  · rfl
  · norm_num

theorem getOwedUSD_cons_neg (p : Str × Rat) (l : DebtLedger) (addr : Str)
    (hp : (p.1 == addr) = false) : getOwedUSD (p :: l) addr = getOwedUSD l addr := by
  unfold getOwedUSD
  rw [List.find?_cons_of_neg _ (by simp [hp])]

theorem getOwedUSD_setOwedUSD (m : DebtLedger) (addr : Str) (c : Rat) :
    getOwedUSD (setOwedUSD m addr c) addr = c := by
  induction m with
  | nil =>
    simp [setOwedUSD, getOwedUSD]
  | cons p t ih =>
    by_cases hp : (p.1 == addr) = true
    · have hany : (p :: t).any (fun q => q.1 == addr) = true := by
        simp [List.any_cons, hp]
      have hset : setOwedUSD (p :: t) addr c =
          (p.1, c) :: t.map (fun q => if q.1 == addr then (q.1, c) else q) := by
        simp only [setOwedUSD, hany, if_true, List.map_cons, hp, if_pos]
      rw [hset]
      unfold getOwedUSD
      rw [List.find?_cons_of_pos _ (by simp [hp])]
      rfl
    · have hpf : (p.1 == addr) = false := Bool.eq_false_iff.mpr hp
      by_cases ht : t.any (fun q => q.1 == addr) = true
      · have hany : (p :: t).any (fun q => q.1 == addr) = true := by
          simp [List.any_cons, ht]
        have hset : setOwedUSD (p :: t) addr c =
            p :: t.map (fun q => if q.1 == addr then (q.1, c) else q) := by
          simp only [setOwedUSD, hany, if_true, List.map_cons, hpf]
          simp [hpf]
        have hsett : setOwedUSD t addr c =
            t.map (fun q => if q.1 == addr then (q.1, c) else q) := by
          simp only [setOwedUSD, ht, if_true]
        rw [hset, getOwedUSD_cons_neg p _ addr hpf, ← hsett]
        exact ih
      · have htf : t.any (fun q => q.1 == addr) = false := Bool.eq_false_iff.mpr ht
        have hany : (p :: t).any (fun q => q.1 == addr) = false := by
          simp [List.any_cons, hpf, htf]
        have hset : setOwedUSD (p :: t) addr c = p :: (t ++ [(addr, c)]) := by
          simp only [setOwedUSD, hany]
          simp
        have hsett : setOwedUSD t addr c = t ++ [(addr, c)] := by
          simp only [setOwedUSD, htf]
          simp
        rw [hset, getOwedUSD_cons_neg p _ addr hpf, ← hsett]
        exact ih

/-- C7 (amended): the debt ledger keys are the raw address strings
(case-sensitive, not lowercase-normalized): `getOwedUSD` returns 0 for
every address with no record, and after `setOwedUSD m P c` a subsequent
lookup with exactly the key `P` returns `c` — only with the identical
spelling, per the counterexample. -/
theorem debt_ledger_get_set (m : DebtLedger) (addr : Str) (c : Rat)
    (habs : m.find? (fun p => p.1 == addr) = none) :
    getOwedUSD m addr = 0 ∧
    getOwedUSD (setOwedUSD m addr c) addr = c := by
  constructor
  · simp [getOwedUSD, habs]
  · exact getOwedUSD_setOwedUSD m addr c

/-- Witness for the amended C7 at a concrete ledger state. -/
theorem debt_ledger_get_set_witness :
    getOwedUSD [(str "0xOther", (3 : Rat))] (str "0xAB") = 0 ∧
    getOwedUSD (setOwedUSD [(str "0xOther", (3 : Rat))] (str "0xAB") (1 / 50))
      (str "0xAB") = 1 / 50 :=
  debt_ledger_get_set [(str "0xOther", (3 : Rat))] (str "0xAB") (1 / 50) (by decide)

theorem hhas_hset_self (h : HeaderMap) (name value : Str) :
    hhas (hset h name value) name = true := by
  unfold hhas
  rw [hget_hset_self]
  rfl

theorem ensureExposed_preserves_xpr (h : HeaderMap) :
    hget (ensurePaymentResponseIsExposed h) X_PAYMENT_RESPONSE_HEADER =
      hget h X_PAYMENT_RESPONSE_HEADER := by
  have hne : lowerStr X_PAYMENT_RESPONSE_HEADER ≠ lowerStr ACCESS_CONTROL_EXPOSE_HEADERS := by
    decide
  unfold ensurePaymentResponseIsExposed
  split
  · rfl
  · split
    · exact hget_hset_other h ACCESS_CONTROL_EXPOSE_HEADERS X_PAYMENT_RESPONSE_HEADER
        X_PAYMENT_RESPONSE_HEADER hne
    · split
      · exact hget_hset_other h ACCESS_CONTROL_EXPOSE_HEADERS X_PAYMENT_RESPONSE_HEADER
          X_PAYMENT_RESPONSE_HEADER hne
      · split
        · exact hget_hset_other h ACCESS_CONTROL_EXPOSE_HEADERS _
            X_PAYMENT_RESPONSE_HEADER hne
        · rfl

/-- C8: for every call whose settlement completes with `success = true` —
whatever number of retry attempts the settle loop needed, captured by the
hypothesis that the retry trace's outcome is the successful settlement —
the returned response carries an `X-PAYMENT-RESPONSE` header whose value is
the url-safe base64 encoding of the JSON object
`\x7bsuccess: true, transaction, network, payer\x7d` built from the
settlement result, and the response's `Access-Control-Expose-Headers`
token list includes `X-PAYMENT-RESPONSE`. -/
theorem settlement_header_attached_and_exposed (env : GateEnv)
    (config : EnsurePaymentConfig) (options : GateOptions) (raw : Str)
    (pl : PaymentPayload) (req sel : PaymentRequirements)
    (verification : VerificationResult) (upstream : Response) (s : SettleResponse)
    (hb : env.buildReq config = Except.ok req)
    (hh : env.header = some raw)
    (hd : env.decodePayment raw = Except.ok pl)
    (hm : env.findMatching [req] { pl with x402Version := X402_VERSION } = some sel)
    (hv : env.verify = Except.ok verification)
    (hvalid : verification.isValid = true)
    (hhandler : env.handler = Except.ok upstream)
    (hst : upstream.status < 400)
    (hs : (retryWithBackoff env.settle {}).outcome = Except.ok s)
    (hsucc : s.success = true) :
    (gateWithX402Payment env (.concrete config) options).result.map
        (fun r => hget r.headers X_PAYMENT_RESPONSE_HEADER)
      = Except.ok (some (safeBase64Encode (jsonStringify (paymentResponsePayload s)))) ∧
    (gateWithX402Payment env (.concrete config) options).result.map
        (fun r => exposesPaymentResponse r.headers) = Except.ok true := by
  have hsettle : settlePayment env config [req] upstream =
      ⟨⟨true, upstream, some s⟩, (retryWithBackoff env.settle {}).callCount,
        (retryWithBackoff env.settle {}).delays⟩ := by
    unfold settlePayment
    rw [if_neg (by omega)]
    rcases htr : retryWithBackoff env.settle {} with ⟨cc, ds, outc⟩
    rw [htr] at hs
    dsimp only at hs ⊢
    rw [hs]
  have hens := ensurePayment_success env config raw pl req sel verification hb hh hd hm hv hvalid
  have hgate : gateWithX402Payment env (.concrete config) options =
      { result := Except.ok { upstream with
            headers := ensurePaymentResponseIsExposed (hset upstream.headers
              X_PAYMENT_RESPONSE_HEADER
              (safeBase64Encode (jsonStringify (paymentResponsePayload s)))) },
        verifyCalls := 1, handlerCalls := 1,
        settleCalls := (retryWithBackoff env.settle {}).callCount,
        settleDelays := (retryWithBackoff env.settle {}).delays } := by
    simp only [gateWithX402Payment]
    rw [hens]
    dsimp only
    rw [hhandler]
    dsimp only
    rw [hsettle]
    dsimp only
    rw [if_neg (by decide)]
    rw [if_pos hsucc]
  constructor
  · rw [hgate]
    dsimp only [Except.map]
    rw [ensureExposed_preserves_xpr, hget_hset_self]
  · rw [hgate]
    dsimp only [Except.map]
    rw [ensureExposed_exposes _ (hhas_hset_self upstream.headers X_PAYMENT_RESPONSE_HEADER _)]

/-- Environment whose facilitator settle throws on the first attempt and
succeeds on the second, so the settlement completes with `success = true`
only after a retry. -/
def flakySettle (n : Nat) : Except Thrown SettleResponse :=
  if n = 0 then .error ⟨true, str "Failed to settle payment: 500 transient"⟩
  else .ok sampleSettlement

def envSettleFlaky : GateEnv :=
  { baseEnv with settle := flakySettle }

/-- Witness for C8 at an environment that settles successfully only on the
second attempt. -/
theorem settlement_header_attached_and_exposed_witness :
    (gateWithX402Payment envSettleFlaky (.concrete sampleConfig) {}).result.map
        (fun r => hget r.headers X_PAYMENT_RESPONSE_HEADER)
      = Except.ok (some (safeBase64Encode (jsonStringify
          (paymentResponsePayload sampleSettlement)))) ∧
    (gateWithX402Payment envSettleFlaky (.concrete sampleConfig) {}).result.map
        (fun r => exposesPaymentResponse r.headers) = Except.ok true :=
  settlement_header_attached_and_exposed envSettleFlaky sampleConfig {} (str "credential")
    ⟨0, str "credential"⟩ sampleRequirement sampleRequirement sampleVerification
    sampleUpstream sampleSettlement rfl rfl rfl rfl rfl rfl rfl (by decide) (by decide) rfl

theorem jsonGetField_payload_success (s : SettleResponse) :
    jsonGetField (paymentResponsePayload s) (str "success") = some (Json.bool true) := by
  unfold paymentResponsePayload
  cases hp : s.payer <;> rfl

theorem paymentResponsePayload_guard (s : SettleResponse) :
    (jsTruthyJson (paymentResponsePayload s) && jsonIsObjectType (paymentResponsePayload s) &&
      jsTruthy (jsonGetField (paymentResponsePayload s) (str "success"))) = true := by
  unfold paymentResponsePayload
  cases hp : s.payer <;> rfl

theorem jsonParse_nil : jsonParse [] = none := by
  unfold jsonParse
  have h : parseValueGo (List.length ([] : Str) + 1) ([] : Str) = none := by
    simp only [List.length_nil]
    simp only [parseValueGo]
    rfl
  rw [h]

theorem jsonParse_emptyObj : jsonParse (str "\x7b\x7d") = some (Json.obj []) := by
  unfold jsonParse
  have h : parseValueGo ((str "\x7b\x7d").length + 1) (str "\x7b\x7d")
      = some (Json.obj [], []) := by
    have hl : (str "\x7b\x7d").length + 1 = 2 + 1 := by rfl
    rw [hl]
    simp only [parseValueGo]
    rfl
  rw [h]
  rfl

/-- C9: round trip of the settlement-evidence header together with the
decoder's failure contract: decoding the header map the gate produces
(attach the encoded payload, then ensure it is exposed) returns exactly the
encoded payload; and `decodePaymentResponseHeader` returns `undefined`
(modelled as `none`, never an exception) when the header is absent, when
its value does not base64/UTF-8 decode, when the decoded text does not
parse as JSON, and when the parsed value's `success` field is not truthy. -/
theorem decodePaymentResponseHeader_contract :
    (∀ (s : SettleResponse) (h : HeaderMap),
      decodePaymentResponseHeader (ensurePaymentResponseIsExposed
        (hset h X_PAYMENT_RESPONSE_HEADER
          (safeBase64Encode (jsonStringify (paymentResponsePayload s)))))
        = some (paymentResponsePayload s)) ∧
    (∀ h : HeaderMap, hget h X_PAYMENT_RESPONSE_HEADER = none →
      decodePaymentResponseHeader h = none) ∧
    (∀ (h : HeaderMap) (v : Str), hget h X_PAYMENT_RESPONSE_HEADER = some v →
      bufferUtf8Decode (base64UrlToBase64 v) = none →
      decodePaymentResponseHeader h = none) ∧
    (∀ (h : HeaderMap) (v text : Str), hget h X_PAYMENT_RESPONSE_HEADER = some v →
      bufferUtf8Decode (base64UrlToBase64 v) = some text →
      jsonParse text = none →
      decodePaymentResponseHeader h = none) ∧
    (∀ (h : HeaderMap) (v text : Str) (json : Json),
      hget h X_PAYMENT_RESPONSE_HEADER = some v →
      bufferUtf8Decode (base64UrlToBase64 v) = some text →
      jsonParse text = some json →
      jsTruthy (jsonGetField json (str "success")) = false →
      decodePaymentResponseHeader h = none) := by
  refine ⟨?_, ?_, ?_, ?_, ?_⟩
  · intro s h
    unfold decodePaymentResponseHeader
    rw [ensureExposed_preserves_xpr, hget_hset_self]
    dsimp only [Option.bind]
    rw [safeBase64_roundtrip]
    dsimp only [Option.bind]
    rw [jsonParse_paymentResponsePayload]
    dsimp only [Option.bind]
    rw [if_pos (paymentResponsePayload_guard s)]
  · intro h habs
    unfold decodePaymentResponseHeader
    rw [habs]
    rfl
  · intro h v hv hdec
    unfold decodePaymentResponseHeader
    rw [hv]
    dsimp only [Option.bind]
    rw [hdec]
  · intro h v text hv hdec hparse
    unfold decodePaymentResponseHeader
    rw [hv]
    dsimp only [Option.bind]
    rw [hdec]
    dsimp only [Option.bind]
    rw [hparse]
  · intro h v text json hv hdec hparse hfalse
    unfold decodePaymentResponseHeader
    rw [hv]
    dsimp only [Option.bind]
    rw [hdec]
    dsimp only [Option.bind]
    rw [hparse]
    dsimp only [Option.bind]
    rw [hfalse]
    simp

/-- Witness for C9 at concrete header maps exercising every branch. -/
theorem decodePaymentResponseHeader_contract_witness :
    decodePaymentResponseHeader (ensurePaymentResponseIsExposed
      (hset [] X_PAYMENT_RESPONSE_HEADER
        (safeBase64Encode (jsonStringify (paymentResponsePayload sampleSettlement)))))
      = some (paymentResponsePayload sampleSettlement) ∧
    decodePaymentResponseHeader [] = none ∧
    decodePaymentResponseHeader [(lowerStr X_PAYMENT_RESPONSE_HEADER, str "%")] = none ∧
    decodePaymentResponseHeader [(lowerStr X_PAYMENT_RESPONSE_HEADER, str "")] = none ∧
    decodePaymentResponseHeader [(lowerStr X_PAYMENT_RESPONSE_HEADER,
      safeBase64Encode (str "\x7b\x7d"))] = none :=
  ⟨decodePaymentResponseHeader_contract.1 sampleSettlement [],
   decodePaymentResponseHeader_contract.2.1 [] rfl,
   decodePaymentResponseHeader_contract.2.2.1 _ (str "%") rfl (by rfl),
   decodePaymentResponseHeader_contract.2.2.2.1 _ (str "") [] rfl rfl jsonParse_nil,
   decodePaymentResponseHeader_contract.2.2.2.2 _ (safeBase64Encode (str "\x7b\x7d"))
     (str "\x7b\x7d") (Json.obj []) rfl (safeBase64_roundtrip (str "\x7b\x7d"))
     jsonParse_emptyObj rfl⟩
